import Mathlib

/-!
# Paddle-Lite `lite::Optimizer`: pass pipeline assembly and execution

A shallow embedding of `lite/core/optimizer.h` (class `Optimizer`: `Run`,
`RunPasses`, the three `Init...Pass` helpers) together with the `CHECK`
facility of `lite/utils/logging.h`, followed by theorems about the pass
list that `Run` assembles and about the fatal checks it performs.

Conventions of the embedding:

* a `CHECK(cond) << msg` that fails ends the run (abort, or an exception when
  `LITE_WITH_EXCEPTION` is defined); a function that may fail returns a
  `Result`, which keeps the state reached at the moment of the failure;
* `std::vector<std::string>` is `List String`, an iterator is an index into
  the list and `end()` is the length of the list;
* types and functions that the header only includes (targets, precisions,
  `SSAGraph`, `mir::Pass`, the pass registry) are parameters of the embedding,
  collected in `Env`.
-/

set_option autoImplicit false

namespace paddle.lite

/-! ## Data model -/

/-- Modelled from the spec: the hardware targets of `lite/core/types.h`, which is
not among the source files. The header under study names `kARM` only; the spec
lists "generic-CPU, ARM, NPU-vendor-X, ..."; every further target is
`other code`. -/
inductive TargetType where
  | kUnk
  | kHost
  | kX86
  | kARM
  | kNPU
  | kAny
  | other (code : Nat)
  deriving DecidableEq, Repr

/-- Modelled from the spec: the numeric precisions of `lite/core/types.h`
("FP32, FP16, INT8, ..."); the header under study names `kFP16` only. -/
inductive PrecisionType where
  | kUnk
  | kFloat
  | kFP16
  | kInt8
  | kAny
  | other (code : Nat)
  deriving DecidableEq, Repr

/-- Modelled from the spec: the data layouts of `lite/core/types.h`
("NCHW, NHWC, ..."). -/
inductive DataLayoutType where
  | kUnk
  | kNCHW
  | kNHWC
  | kAny
  | other (code : Nat)
  deriving DecidableEq, Repr

/-- Modelled from the spec: `Place` is the immutable triple (target, precision,
data layout), compared structurally. -/
structure Place where
  target : TargetType
  precision : PrecisionType
  layout : DataLayoutType
  deriving DecidableEq, Repr

/-- Modelled from the spec: `core::KernelPickFactor` is a bit-set of the
dimensions considered when kernels are scored. -/
structure KernelPickFactor where
  considerTarget : Bool
  considerPrecision : Bool
  considerDataLayout : Bool
  deriving DecidableEq, Repr

/-- A `Scope*` that is not null points to a scope, identified by a number. -/
abbrev Scope := Nat

/-- Modelled from the spec: a `Program` exposes its blocks (`block_size()` is
their number) and an execution scope handle (`exec_scope()`, a pointer that may
be null). The content `B` of a block is left open. -/
structure Program (B : Type) where
  blocks : List B
  exec_scope : Option Scope

/-- The member `program.block_size()`. -/
def Program.block_size {B : Type} (program : Program B) : Nat :=
  program.blocks.length

/-- Modelled from the spec: a `mir::Pass` as `RunPasses` sees it. `Apply` rewrites
one block graph; `matchesTarget targets` is `PassMatchesTarget(*pass, targets)`
and `matchesKernels` is `PassMatchesKernels(*pass)` of `pass_utils.h`. -/
structure Pass (G : Type) where
  Apply : G → G
  matchesTarget : Finset TargetType → Bool
  matchesKernels : Bool

/-- The two preprocessor switches that `optimizer.h` tests. -/
structure BuildFlags where
  LITE_WITH_FPGA : Bool
  LITE_WITH_PRECISION_PROFILE : Bool
  deriving DecidableEq, Repr

/-- Everything `optimizer.h` takes from other headers: the global registry
`mir::PassManager::Global()` (`LookUp name` is `none` for a null result),
`SSAGraph::Build` on a fresh graph, `SSAGraph::SetValidPlaces`, and the
preprocessor switches of the build. -/
structure Env (B G : Type) where
  LookUp : String → Option (Pass G)
  Build : Program B → List Place → Nat → G
  SetValidPlaces : G → List Place → G
  flags : BuildFlags

/-- The calls `Optimizer` makes on its collaborators, in the order made. -/
inductive Event where
  | Build (block_idx : Nat)
  | SpecifyKernelPickTactic (factor : KernelPickFactor)
  | SetValidPlaces (pass : String)
  | SetAllGraphs (pass : String)
  | Apply (pass : String) (block_idx : Nat)
  deriving DecidableEq, Repr

/-- The data members of `class Optimizer` (`graphs_`, `valid_places_`,
`exec_scope_`, `program_`) and, as ghost state, the trace of the calls made so
far. -/
structure Optimizer (B G : Type) where
  graphs_ : List G
  valid_places_ : List Place
  exec_scope_ : Option Scope
  program_ : Option (Program B)
  trace : List Event

/-- The default constructor `Optimizer() {}`. -/
def Optimizer.new (B G : Type) : Optimizer B G :=
  { graphs_ := [], valid_places_ := [], exec_scope_ := none, program_ := none, trace := [] }

/-- Outcome of a member function. `ok s` returns normally in state `s`;
`fatal expr msg s` is a failed `CHECK(expr) << msg` in state `s` (logging.h: the
destructor of `LogMessageFatal` / `VoidifyFatal` aborts or throws);
`undefined s` is an access outside a vector, which C++ leaves undefined. -/
inductive Result (σ : Type) where
  | ok (s : σ)
  | fatal (expr : String) (msg : String) (s : σ)
  | undefined (s : σ)

/-- Sequencing: what follows runs only after a normal return. -/
def Result.bind {σ : Type} (r : Result σ) (k : σ → Result σ) : Result σ :=
  match r with
  | .ok s => k s
  | .fatal e m s => .fatal e m s
  | .undefined s => .undefined s

/-- The macro `CHECK(x) << msg` of logging.h: nothing happens when `x` holds,
otherwise the run ends there. `expr` is the text of `x`. -/
def CHECK {σ : Type} (x : Bool) (expr msg : String) (s : σ) : Result σ :=
  if x then .ok s else .fatal expr msg s

/-! ## The pass list assembled by `Run` -/

/-- The set `kSubblockUnsupportedPasses`. -/
def kSubblockUnsupportedPasses : List String :=
  ["memory_optimize_pass"]

/-- Modelled from the spec: `kRootBlockIdx` (declared in `lite/core/program.h`);
"index 0 is the root block". -/
def kRootBlockIdx : Nat := 0

/-- The initializer of `passes_local` in `Run`; its last entry is compiled in
unless `LITE_WITH_FPGA` or `LITE_WITH_PRECISION_PROFILE` is defined. -/
def passes_default (flags : BuildFlags) : List String :=
  ["lite_quant_dequant_fuse_pass",
   "weight_quantization_preprocess_pass",
   "remove_scale1_pass",
   "adaptive_1x1_pool2d_convert_global_pass",
   "lite_conv_elementwise_fuse_pass",
   "lite_conv_bn_fuse_pass",
   "lite_conv_elementwise_fuse_pass",
   "lite_conv_conv_fuse_pass",
   "lite_conv_activation_fuse_pass",
   "lite_var_conv_2d_activation_fuse_pass",
   "lite_match_matrix_activation_fuse_pass",
   "lite_squeeze2_matmul_fuse_pass",
   "lite_reshape2_matmul_fuse_pass",
   "lite_matmul_element_add_fuse_pass",
   "lite_matmul_fuse_pass",
   "lite_fc_fuse_pass",
   "lite_shuffle_channel_fuse_pass",
   "lite_transpose_softmax_transpose_fuse_pass",
   "lite_interpolate_fuse_pass",
   "identity_scale_eliminate_pass",
   "lite_scales_fuse_pass",
   "lite_sequence_reverse_embedding_fuse_pass",
   "elementwise_mul_constant_eliminate_pass",
   "lite_sequence_pool_concat_fuse_pass",
   "lite_scale_activation_fuse_pass",
   "lite_scaleacts_fuse_pass",
   "lite_elementwise_scale_fuse_pass",
   "lite_instance_norm_activation_fuse_pass",
   "lite_fc_prelu_fuse_pass",
   "lite_elementwise_activation_fuse_pass",
   "lite_conv_scale_fuse_pass",
   "identity_dropout_eliminate_pass",
   "__xpu__graph_dedup_pass",
   "__xpu__resnet_fuse_pass",
   "__xpu__resnet_cbam_fuse_pass",
   "__xpu__conv2d_fuse_pass",
   "__xpu__squeeze_excitation_fuse_pass",
   "__xpu__resblock_reduction_fuse_pass",
   "__xpu__resblock_normal_fuse_pass",
   "__xpu__conv2d_concat_pool2d_fuse_pass",
   "__xpu__consecutive_conv2d_fuse_pass",
   "__xpu__conv2d_pool2d_fuse_pass",
   "__xpu__concat_conv2d_fuse_pass",
   "__xpu__consecutive_block_fuse_pass",
   "__xpu__link_previous_out_max_pass",
   "__xpu__sfa_head_meanstd_fuse_pass",
   "__xpu__sfa_head_moment_fuse_pass",
   "__xpu__mmdnn_fuse_pass",
   "__xpu__multi_encoder_fuse_pass",
   "__xpu__embedding_with_eltwise_add_fuse_pass",
   "__xpu__fc_fuse_pass",
   "__xpu__softmax_topk_fuse_pass",
   "__xpu__multi_encoder_adaptive_seqlen_fuse_pass",
   "__xpu__multi_encoder_slice_link_fuse_pass",
   "__xpu__generate_sequence_fuse_pass",
   "__xpu__logit_fuse_pass",
   "ssd_boxes_calc_offline_pass",
   "quantized_op_attributes_inference_pass",
   "restrict_quantized_op_with_same_input_output_scale_pass",
   "npu_subgraph_pass",
   "huawei_ascend_npu_subgraph_pass",
   "imagination_nna_subgraph_pass",
   "xpu_subgraph_pass",
   "bm_subgraph_pass",
   "apu_subgraph_pass",
   "rknpu_subgraph_pass",
   "mlu_subgraph_pass",
   "control_flow_op_unused_inputs_and_outputs_eliminate_pass",
   "static_kernel_pick_pass",
   "remove_tf_redundant_ops_pass",
   "variable_place_inference_pass",
   "control_flow_op_shared_inputs_and_outputs_place_sync_pass",
   "__fpga_kernel_place_correct_pass",
   "mlu_postprocess_pass",
   "argument_type_display_pass",
   "type_target_cast_pass",
   "variable_place_inference_pass",
   "control_flow_op_shared_inputs_and_outputs_place_sync_pass",
   "argument_type_display_pass",
   "io_copy_kernel_pick_pass",
   "argument_type_display_pass",
   "variable_place_inference_pass",
   "control_flow_op_shared_inputs_and_outputs_place_sync_pass",
   "argument_type_display_pass",
   "type_precision_cast_pass",
   "variable_place_inference_pass",
   "control_flow_op_shared_inputs_and_outputs_place_sync_pass",
   "argument_type_display_pass",
   "type_layout_cast_pass",
   "argument_type_display_pass",
   "variable_place_inference_pass",
   "control_flow_op_shared_inputs_and_outputs_place_sync_pass",
   "argument_type_display_pass",
   "runtime_context_assign_pass",
   "argument_type_display_pass",
   "lite_inplace_fuse_pass"]
  ++ (if !(flags.LITE_WITH_FPGA || flags.LITE_WITH_PRECISION_PROFILE)
      then ["memory_optimize_pass"] else [])

/-- The idiom `v.erase(std::remove(v.begin(), v.end(), name), v.end())`: every
element equal to `name` is dropped, the others keep their order. -/
def eraseRemove (v : List String) (name : String) : List String :=
  v.filter (fun x => decide (x ≠ name))

/-- The multi-block branch of `Run`: with more than one graph the two names are
erased from `passes_local`. -/
def prune (graphs_size : Nat) (passes_local : List String) : List String :=
  if graphs_size > 1 then
    eraseRemove (eraseRemove passes_local "lite_conv_bn_fuse_pass") "__xpu__graph_dedup_pass"
  else passes_local

/-- The local constant `msa_pass` of `Run`. -/
def msa_pass : String := "multi_stream_analysis_pass"

/-- The local constant `msa_depend_pass` of `Run`. -/
def msa_depend_pass : String := "runtime_context_assign_pass"

/-- The local constant `pqd_pass` of `Run`. -/
def pqd_pass : String := "post_quant_dynamic_pass"

/-- The local constant `pqd_depend_pass` of `Run`. -/
def pqd_depend_pass : String := "lite_quant_dequant_fuse_pass"

/-- The local constant `fp16_pass` of `Run`. -/
def fp16_pass : String := "fp16_attribute_pass"

/-- The call `std::find(v.begin(), v.end(), x)` as an index: the position of the
first element equal to `x`, or `v.length` (that is `end()`) when there is none. -/
def find (v : List String) (x : String) : Nat :=
  match v with
  | [] => 0
  | y :: ys => if y = x then 0 else find ys x + 1

/-- The call `v.insert(iter, x)`: `x` is placed in front of the element at index
`iter` (at the end when `iter` is `end()`). -/
def insertAt (v : List String) (iter : Nat) (x : String) : List String :=
  v.take iter ++ x :: v.drop iter

/-- One round of the loop `for (const std::string& pass : passes)` of `Run`. A
failed `CHECK(iter != passes_local.end()) << "No find " << anchor` is
`Except.error` with the streamed message. -/
def mergeStep (passes_local : List String) (pass : String) : Except String (List String) :=
  if pass = msa_pass then
    let iter := find passes_local msa_depend_pass
    if iter = passes_local.length then .error ("No find " ++ msa_depend_pass)
    else .ok (insertAt passes_local iter msa_pass)
  else if pass = pqd_pass then
    let iter := find passes_local pqd_depend_pass
    if iter = passes_local.length then .error ("No find " ++ pqd_depend_pass)
    else .ok (insertAt passes_local (iter + 1) pqd_pass)
  else .ok (passes_local ++ [pass])

/-- The whole loop `for (const std::string& pass : passes)`: the extra names are
merged one at a time, and the first failed check ends the run. -/
def mergeLoop (passes_local : List String) (passes : List String) : Except String (List String) :=
  match passes with
  | [] => .ok passes_local
  | pass :: rest =>
    match mergeStep passes_local pass with
    | .error msg => .error msg
    | .ok next => mergeLoop next rest

/-- The loop `for (auto place : valid_places)` of `Run`: the first place with
target `kARM` and precision `kFP16` appends `fp16_pass` and leaves the loop. -/
def fp16Loop (valid_places : List Place) (passes_local : List String) : List String :=
  match valid_places with
  | [] => passes_local
  | place :: rest =>
    if place.target = TargetType.kARM then
      if place.precision = PrecisionType.kFP16 then passes_local ++ [fp16_pass]
      else fp16Loop rest passes_local
    else fp16Loop rest passes_local

/-- The list `Run` passes to `RunPasses`, computed from the number of graphs, the
valid places and the extra names: initializer, pruning, merge loop, FP16 loop. -/
def passes_local (flags : BuildFlags) (graphs_size : Nat) (valid_places : List Place)
    (passes : List String) : Except String (List String) :=
  match mergeLoop (prune graphs_size (passes_default flags)) passes with
  | .error msg => .error msg
  | .ok merged => .ok (fp16Loop valid_places merged)

/-! ## The member functions of `Optimizer` -/

section Members

variable {B G : Type}

/-- The loop `for (block_idx = 0; block_idx < block_size; ++block_idx)` of `Run`:
a fresh graph is built from block `block_idx`, given the valid places, and
appended to `graphs_`. -/
def buildGraphs (env : Env B G) (program : Program B) (valid_places : List Place)
    (block_size : Nat) (self : Optimizer B G) : Optimizer B G :=
  (List.range block_size).foldl
    (fun s block_idx =>
      { s with
        graphs_ := s.graphs_ ++
          [env.SetValidPlaces (env.Build program valid_places block_idx) valid_places],
        trace := s.trace ++ [Event.Build block_idx] })
    self

/-- Modelled from the spec: `SpecifyKernelPickTactic` is declared in `optimizer.h`
and defined in a file that is not among the sources. The spec says of it only
that the Optimizer "owns configuring and threading the factor through the
pipeline": the call is recorded and returns. -/
def SpecifyKernelPickTactic (factor : KernelPickFactor) (self : Optimizer B G) :
    Optimizer B G :=
  { self with trace := self.trace ++ [Event.SpecifyKernelPickTactic factor] }

/-- The member `InitTargetTypeTransformPass`. -/
def InitTargetTypeTransformPass (env : Env B G) (self : Optimizer B G) :
    Result (Optimizer B G) :=
  (CHECK (env.LookUp "type_target_cast_pass").isSome "pass" "" self).bind fun self =>
  (CHECK (!self.valid_places_.isEmpty) "!valid_places_.empty()" "" self).bind fun self =>
  .ok { self with trace := self.trace ++ [Event.SetValidPlaces "type_target_cast_pass"] }

/-- The member `InitControlFlowOpUnusedInputsAndOutputsEliminatePass`. -/
def InitControlFlowOpUnusedInputsAndOutputsEliminatePass (env : Env B G)
    (self : Optimizer B G) : Result (Optimizer B G) :=
  (CHECK (env.LookUp "control_flow_op_unused_inputs_and_outputs_eliminate_pass").isSome
    "pass" "" self).bind fun self =>
  (CHECK (!self.graphs_.isEmpty) "!graphs_.empty()" "" self).bind fun self =>
  .ok { self with trace := self.trace ++
          [Event.SetAllGraphs "control_flow_op_unused_inputs_and_outputs_eliminate_pass"] }

/-- The member `InitControlFlowOpSharedInputsAndOutputsPlaceSyncPass`. -/
def InitControlFlowOpSharedInputsAndOutputsPlaceSyncPass (env : Env B G)
    (self : Optimizer B G) : Result (Optimizer B G) :=
  (CHECK (env.LookUp "control_flow_op_shared_inputs_and_outputs_place_sync_pass").isSome
    "pass" "" self).bind fun self =>
  (CHECK (!self.graphs_.isEmpty) "!graphs_.empty()" "" self).bind fun self =>
  .ok { self with trace := self.trace ++
          [Event.SetAllGraphs "control_flow_op_shared_inputs_and_outputs_place_sync_pass"] }

/-- The body of the loop `for (auto& x : passes)` of `RunPasses`, for one name
`x`: a name the registry does not know is skipped; so is a pass that does not
match the targets of `valid_places_` or the kernels; a matching pass named in
`kSubblockUnsupportedPasses` is applied to `graphs_[kRootBlockIdx]` alone, any
other matching pass to every graph in turn. -/
def RunPasses.step (env : Env B G) (self : Optimizer B G) (x : String) :
    Result (Optimizer B G) :=
  match env.LookUp x with
  | none => .ok self
  | some pass =>
    let targets : Finset TargetType := (self.valid_places_.map (fun place => place.target)).toFinset
    let matched := pass.matchesTarget targets && pass.matchesKernels
    if !matched then .ok self
    else if x ∈ kSubblockUnsupportedPasses then
      match self.graphs_ with
      | [] => .undefined self
      | root :: subblocks =>
        .ok { self with
              graphs_ := pass.Apply root :: subblocks,
              trace := self.trace ++ [Event.Apply x kRootBlockIdx] }
    else
      .ok { self with
            graphs_ := self.graphs_.map pass.Apply,
            trace := self.trace ++ (List.range self.graphs_.length).map (Event.Apply x) }

/-- The member `RunPasses`: the names are processed in order. -/
def RunPasses (env : Env B G) (passes : List String) (self : Optimizer B G) :
    Result (Optimizer B G) :=
  match passes with
  | [] => .ok self
  | x :: rest => (RunPasses.step env self x).bind (RunPasses env rest)

/-- The member `Run`. The two members are assigned first, then the two checks,
the graph loop, the configuration of the stateful passes, the assembly of
`passes_local` (a failed anchor check ends the run), `RunPasses`, and at last
the assignment of `exec_scope_`. -/
def Run (env : Env B G) (program : Program B) (valid_places : List Place)
    (kernel_pick_factor : KernelPickFactor) (passes : List String)
    (self : Optimizer B G) : Result (Optimizer B G) :=
  let self := { self with program_ := some program, valid_places_ := valid_places }
  (CHECK (!valid_places.isEmpty) "!valid_places.empty()"
    "At least one valid_place should be set" self).bind fun self =>
  (CHECK self.graphs_.isEmpty "graphs_.empty()" "duplicate optimize found" self).bind fun self =>
  let self := buildGraphs env program valid_places program.block_size self
  let self := SpecifyKernelPickTactic kernel_pick_factor self
  (InitTargetTypeTransformPass env self).bind fun self =>
  (InitControlFlowOpUnusedInputsAndOutputsEliminatePass env self).bind fun self =>
  (InitControlFlowOpSharedInputsAndOutputsPlaceSyncPass env self).bind fun self =>
  match passes_local env.flags self.graphs_.length valid_places passes with
  | .error msg => .fatal "iter != passes_local.end()" msg self
  | .ok list =>
    (RunPasses env list self).bind fun self =>
    .ok { self with exec_scope_ := program.exec_scope }

/-- Outcome of a member function that returns a value: `ok value s` returns
`value` in state `s`; `fatal` and `undefined` are as for `Result`. -/
inductive Returned (σ α : Type) where
  | ok (value : α) (s : σ)
  | fatal (expr : String) (msg : String) (s : σ)
  | undefined (s : σ)

/-- Modelled from the spec: `mir::GenerateProgramPass` (`generate_program_pass.h`
is not among the source files), the terminal pass that "lowers the final graphs
into an executable instruction sequence". `Apply` is its uniform pass
operation; `GenProgram graphs` is what `GenProgram()` builds after the pass was
applied to `graphs`, in that order. The instruction sequence `R` is left
open. -/
structure GenerateProgramPass (G R : Type) where
  Apply : G → G
  GenProgram : List G → R

/-- Modelled from the spec: `RuntimeProgram`, "the pipeline's final artifact",
as far as `optimizer.h` touches it: what `GenProgram()` built, and the scope
attached by `set_exec_scope`. -/
structure RuntimeProgram (R : Type) where
  insts : R
  exec_scope : Option Scope

/-- The member `GenRuntimeProgram`. `lookup` is the result of
`mir::PassManager::Global().LookUp<mir::GenerateProgramPass>("generate_program_pass")`,
`none` for a null pointer. The pointer is not checked: with a null pointer the
calls `pass->Apply(graph)` and `pass->GenProgram()` are undefined. Otherwise the
pass is applied to every graph in turn, the program is generated, and
`CHECK(exec_scope_)` guards the attachment of the scope. -/
def GenRuntimeProgram {R : Type} (lookup : Option (GenerateProgramPass G R))
    (self : Optimizer B G) : Returned (Optimizer B G) (RuntimeProgram R) :=
  match lookup with
  | none => .undefined self
  | some pass =>
    let self := { self with
      graphs_ := self.graphs_.map pass.Apply,
      trace := self.trace
        ++ (List.range self.graphs_.length).map (Event.Apply "generate_program_pass") }
    let program := pass.GenProgram self.graphs_
    match self.exec_scope_ with
    | none => .fatal "exec_scope_" "" self
    | some scope => .ok { insts := program, exec_scope := some scope } self

/-- The member `exec_scope()`. -/
def exec_scope (self : Optimizer B G) : Option Scope :=
  self.exec_scope_

/-- The member `ssa_graph(int block_idx)`. After `CHECK(!graphs_.empty())` the
vector is indexed with `block_idx` without a range check: an index outside the
vector is undefined. An entry of `graphs_` is never a null pointer (`Run` fills
the vector with fresh graphs), so `CHECK(graphs_[block_idx])` holds for an index
inside the vector. -/
def ssa_graph (self : Optimizer B G) (block_idx : Int) : Returned (Optimizer B G) G :=
  if self.graphs_.isEmpty then .fatal "!graphs_.empty()" "" self
  else if block_idx < 0 then .undefined self
  else
    match self.graphs_[block_idx.toNat]? with
    | none => .undefined self
    | some graph => .ok graph self

/-- The member `mutable_ssa_graph(int block_idx)`, which has the checks and the
access of `ssa_graph` and returns the pointer to the same graph. -/
def mutable_ssa_graph (self : Optimizer B G) (block_idx : Int) :
    Returned (Optimizer B G) G :=
  if self.graphs_.isEmpty then .fatal "!graphs_.empty()" "" self
  else if block_idx < 0 then .undefined self
  else
    match self.graphs_[block_idx.toNat]? with
    | none => .undefined self
    | some graph => .ok graph self

end Members

/-! ## Auxiliary definitions for the statements and proofs -/

/-- Shape of `passes_local` during the merge loop. -/
def mergedShape (k j : Nat) (mid tail : List String) : List String :=
  pqd_depend_pass ::
    (List.replicate k pqd_pass ++ (mid ++ (List.replicate j msa_pass ++ msa_depend_pass :: tail)))

/-- The extra names that have no anchor, in the order given. -/
def unanchored (passes : List String) : List String :=
  passes.filter (fun x => decide (x ≠ msa_pass) && decide (x ≠ pqd_pass))

/-- The entries of the pruned default list strictly between its first entry and
the first `runtime_context_assign_pass`. -/
def shapeMid (flags : BuildFlags) (graphs_size : Nat) : List String :=
  ((prune graphs_size (passes_default flags)).take
    (find (prune graphs_size (passes_default flags)) msa_depend_pass)).drop 1

/-- The entries of the pruned default list after the first
`runtime_context_assign_pass`. -/
def shapeTail (flags : BuildFlags) (graphs_size : Nat) : List String :=
  (prune graphs_size (passes_default flags)).drop
    (find (prune graphs_size (passes_default flags)) msa_depend_pass + 1)

/-- Whether some valid place has target `kARM` and precision `kFP16`. -/
def hasArmFp16 (valid_places : List Place) : Bool :=
  valid_places.any
    (fun place => decide (place.target = TargetType.kARM) && decide (place.precision = PrecisionType.kFP16))

section Provenance

variable {B G : Type}

/-- The graph that the build loop of `Run` appends for block `block_idx`. -/
def builtGraph (env : Env B G) (program : Program B) (valid_places : List Place)
    (block_idx : Nat) : G :=
  env.SetValidPlaces (env.Build program valid_places block_idx) valid_places

/-- What one entry `x` of the pass list does to the graph at index `block_idx`,
when the valid places are `valid_places`: nothing when the name is not
registered or the pass does not match; otherwise the pass is applied, except
that a pass of `kSubblockUnsupportedPasses` leaves every graph but the root
as it is. -/
def applyTo (env : Env B G) (valid_places : List Place) (block_idx : Nat) (graph : G)
    (x : String) : G :=
  match env.LookUp x with
  | none => graph
  | some pass =>
    if pass.matchesTarget (valid_places.map (fun place => place.target)).toFinset
        && pass.matchesKernels then
      if x ∈ kSubblockUnsupportedPasses then
        if block_idx = kRootBlockIdx then pass.Apply graph else graph
      else pass.Apply graph
    else graph

end Provenance

/-- A small registry for concrete runs: it knows the three passes that `Run`
configures, each of which matches every target and adds one to a graph
represented by a number; block `block_idx` is built as the number
`10 * block_idx`. -/
def exampleEnv : Env Unit Nat :=
  { LookUp := fun x =>
      if x = "type_target_cast_pass"
          ∨ x = "control_flow_op_unused_inputs_and_outputs_eliminate_pass"
          ∨ x = "control_flow_op_shared_inputs_and_outputs_place_sync_pass"
      then some { Apply := fun g => g + 1, matchesTarget := fun _ => true, matchesKernels := true }
      else none,
    Build := fun _ _ block_idx => 10 * block_idx,
    SetValidPlaces := fun g _ => g,
    flags := { LITE_WITH_FPGA := false, LITE_WITH_PRECISION_PROFILE := false } }

/-- The valid places `[{Host, FP32, NCHW}]`. -/
def examplePlaces : List Place :=
  [{ target := TargetType.kHost, precision := PrecisionType.kFloat, layout := DataLayoutType.kNCHW }]

/-- The factor that considers target, precision and data layout. -/
def exampleFactor : KernelPickFactor :=
  { considerTarget := true, considerPrecision := true, considerDataLayout := true }

/-- The state in which `Run` on a fresh Optimizer returns for `exampleEnv`, a
program of one block with execution scope 3, `examplePlaces`, `exampleFactor`
and no extra passes: the one graph has been rewritten seven times. -/
def exampleAfter : Optimizer Unit Nat :=
  { graphs_ := [7],
    valid_places_ := examplePlaces,
    exec_scope_ := some 3,
    program_ := some { blocks := [()], exec_scope := some 3 },
    trace :=
      [Event.Build 0,
       Event.SpecifyKernelPickTactic exampleFactor,
       Event.SetValidPlaces "type_target_cast_pass",
       Event.SetAllGraphs "control_flow_op_unused_inputs_and_outputs_eliminate_pass",
       Event.SetAllGraphs "control_flow_op_shared_inputs_and_outputs_place_sync_pass",
       Event.Apply "control_flow_op_unused_inputs_and_outputs_eliminate_pass" 0,
       Event.Apply "control_flow_op_shared_inputs_and_outputs_place_sync_pass" 0,
       Event.Apply "type_target_cast_pass" 0,
       Event.Apply "control_flow_op_shared_inputs_and_outputs_place_sync_pass" 0,
       Event.Apply "control_flow_op_shared_inputs_and_outputs_place_sync_pass" 0,
       Event.Apply "control_flow_op_shared_inputs_and_outputs_place_sync_pass" 0,
       Event.Apply "control_flow_op_shared_inputs_and_outputs_place_sync_pass" 0] }

/-- A registry for concrete runs that knows every name: each pass matches every
target and adds one to a graph represented by a number. -/
def fullEnv : Env Unit Nat :=
  { LookUp := fun _ =>
      some { Apply := fun g => g + 1, matchesTarget := fun _ => true, matchesKernels := true },
    Build := fun _ _ block_idx => 10 * block_idx,
    SetValidPlaces := fun g _ => g,
    flags := { LITE_WITH_FPGA := false, LITE_WITH_PRECISION_PROFILE := false } }

/-- A registry for concrete runs that knows `type_target_cast_pass` alone, as a
pass that matches no set of targets. -/
def mismatchEnv : Env Unit Nat :=
  { LookUp := fun x =>
      if x = "type_target_cast_pass"
      then some { Apply := fun g => g + 1, matchesTarget := fun _ => false, matchesKernels := true }
      else none,
    Build := fun _ _ block_idx => 10 * block_idx,
    SetValidPlaces := fun g _ => g,
    flags := { LITE_WITH_FPGA := false, LITE_WITH_PRECISION_PROFILE := false } }

/-- An Optimizer state with two graphs, `0` for the root block and `10` for the
subblock, the valid places `examplePlaces` and an empty trace. -/
def twoGraphs : Optimizer Unit Nat :=
  { graphs_ := [0, 10],
    valid_places_ := examplePlaces,
    exec_scope_ := none,
    program_ := none,
    trace := [] }

/-- The state in which a member function ended, whatever the outcome. -/
def Result.state {σ : Type} (r : Result σ) : σ :=
  match r with
  | .ok s => s
  | .fatal _ _ s => s
  | .undefined s => s

/-- A generate-program pass for concrete runs: applying it adds 100 to a graph
represented by a number, and the generated program lists the graphs it was
applied to. -/
def exampleGenerateProgramPass : GenerateProgramPass Nat (List Nat) :=
  { Apply := fun g => g + 100, GenProgram := fun graphs => graphs }

/-- The entries of `v` strictly between the first `a` and the first `b`. -/
def segmentBetween (v : List String) (a b : String) : List String :=
  (v.take (find v b)).drop (find v a + 1)

/-- The three names that the default list repeats after every cast pass. -/
def placeInferenceTriple : List String :=
  ["variable_place_inference_pass",
   "control_flow_op_shared_inputs_and_outputs_place_sync_pass",
   "argument_type_display_pass"]

/-- The entries of the pruned default list in front of its first
`type_target_cast_pass`, the first entry of the list left out. -/
def shapeHead (flags : BuildFlags) (graphs_size : Nat) : List String :=
  (shapeMid flags graphs_size).take (find (shapeMid flags graphs_size) "type_target_cast_pass")

/-- The entries of the default list between `type_target_cast_pass` and
`type_precision_cast_pass`. -/
def targetToPrecision : List String :=
  ["variable_place_inference_pass",
   "control_flow_op_shared_inputs_and_outputs_place_sync_pass",
   "argument_type_display_pass",
   "io_copy_kernel_pick_pass",
   "argument_type_display_pass",
   "variable_place_inference_pass",
   "control_flow_op_shared_inputs_and_outputs_place_sync_pass",
   "argument_type_display_pass"]

/-- The entries of the default list between `type_precision_cast_pass` and
`type_layout_cast_pass`. -/
def precisionToLayout : List String :=
  ["variable_place_inference_pass",
   "control_flow_op_shared_inputs_and_outputs_place_sync_pass",
   "argument_type_display_pass"]

/-- The entries of the default list between `type_layout_cast_pass` and
`runtime_context_assign_pass`. -/
def layoutToContext : List String :=
  ["argument_type_display_pass",
   "variable_place_inference_pass",
   "control_flow_op_shared_inputs_and_outputs_place_sync_pass",
   "argument_type_display_pass"]

/-! ## Lemmas on `find`, `insertAt` and the merge loop -/

theorem find_append_cons (A T : List String) (x : String) (h : x ∉ A) :
    find (A ++ x :: T) x = A.length := by
  induction A with
  | nil => simp [find]
  | cons a A ih =>
    have ha : a ≠ x := fun e => h (by simp [e])
    have hA : x ∉ A := fun e => h (by simp [e])
    simp [find, ha, ih hA]

theorem find_le_length (v : List String) (x : String) : find v x ≤ v.length := by
  induction v with
  | nil => simp [find]
  | cons a v ih =>
    by_cases ha : a = x <;> simp [find, ha]
    exact ih

theorem find_eq_length_iff (v : List String) (x : String) :
    find v x = v.length ↔ x ∉ v := by
  induction v with
  | nil => simp [find]
  | cons a v ih =>
    by_cases ha : a = x
    · simp [find, ha]
    · have hx : ¬ x = a := fun e => ha e.symm
      simp [find, ha, hx, ih]

theorem insertAt_append (A T : List String) (x : String) :
    insertAt (A ++ T) A.length x = A ++ x :: T := by
  simp [insertAt]

theorem mergeStep_msa (A T : List String) (h : msa_depend_pass ∉ A) :
    mergeStep (A ++ msa_depend_pass :: T) msa_pass
      = .ok (A ++ msa_pass :: msa_depend_pass :: T) := by
  have hf := find_append_cons A T msa_depend_pass h
  simp only [mergeStep, if_true, hf, insertAt_append]
  simp

theorem mergeStep_pqd (A T : List String) (h : pqd_depend_pass ∉ A) :
    mergeStep (A ++ pqd_depend_pass :: T) pqd_pass
      = .ok (A ++ pqd_depend_pass :: pqd_pass :: T) := by
  have hf := find_append_cons A T pqd_depend_pass h
  have hne : pqd_pass ≠ msa_pass := by decide
  have hins : insertAt (A ++ pqd_depend_pass :: T) (A.length + 1) pqd_pass
      = A ++ pqd_depend_pass :: pqd_pass :: T := by
    have := insertAt_append (A ++ [pqd_depend_pass]) T pqd_pass
    simpa using this
  simp only [mergeStep, if_true, hf, hne, if_false, hins]
  simp

theorem mergeStep_other (v : List String) (x : String) (h1 : x ≠ msa_pass)
    (h2 : x ≠ pqd_pass) : mergeStep v x = .ok (v ++ [x]) := by
  simp [mergeStep, h1, h2]

theorem replicate_append_cons (n : Nat) (x : String) (T : List String) :
    List.replicate n x ++ x :: T = List.replicate (n + 1) x ++ T := by
  induction n with
  | zero => rfl
  | succ n ih =>
    show x :: (List.replicate n x ++ x :: T) = x :: (List.replicate (n + 1) x ++ T)
    rw [ih]

theorem mergeStep_shape_msa (k j : Nat) (mid tail : List String)
    (hmid : msa_depend_pass ∉ mid) :
    mergeStep (mergedShape k j mid tail) msa_pass = .ok (mergedShape k (j + 1) mid tail) := by
  have hA : msa_depend_pass ∉
      pqd_depend_pass :: (List.replicate k pqd_pass ++ (mid ++ List.replicate j msa_pass)) := by
    have h1 : msa_depend_pass ≠ pqd_depend_pass := by decide
    have h2 : msa_depend_pass ≠ pqd_pass := by decide
    have h3 : msa_depend_pass ≠ msa_pass := by decide
    simp only [List.mem_cons, List.mem_append, List.mem_replicate, not_or, not_and]
    exact ⟨h1, fun _ => h2, hmid, fun _ => h3⟩
  have h := mergeStep_msa _ tail hA
  have e1 : mergedShape k j mid tail
      = (pqd_depend_pass :: (List.replicate k pqd_pass ++ (mid ++ List.replicate j msa_pass)))
          ++ msa_depend_pass :: tail := by
    simp [mergedShape]
  have e2 : mergedShape k (j + 1) mid tail
      = (pqd_depend_pass :: (List.replicate k pqd_pass ++ (mid ++ List.replicate j msa_pass)))
          ++ msa_pass :: msa_depend_pass :: tail := by
    simp only [mergedShape, ← replicate_append_cons j msa_pass]
    simp
  rw [e1, e2, h]

theorem mergeStep_shape_pqd (k j : Nat) (mid tail : List String) :
    mergeStep (mergedShape k j mid tail) pqd_pass = .ok (mergedShape (k + 1) j mid tail) := by
  have h := mergeStep_pqd []
    (List.replicate k pqd_pass ++ (mid ++ (List.replicate j msa_pass ++ msa_depend_pass :: tail)))
    (by simp)
  simpa [mergedShape, List.replicate_succ] using h

theorem mergeStep_shape_other (k j : Nat) (mid tail : List String) (x : String)
    (h1 : x ≠ msa_pass) (h2 : x ≠ pqd_pass) :
    mergeStep (mergedShape k j mid tail) x = .ok (mergedShape k j mid (tail ++ [x])) := by
  rw [mergeStep_other _ _ h1 h2]
  simp [mergedShape]

theorem mergeLoop_shape (passes : List String) (k j : Nat) (mid tail : List String)
    (hmid : msa_depend_pass ∉ mid) :
    mergeLoop (mergedShape k j mid tail) passes
      = .ok (mergedShape (k + passes.count pqd_pass) (j + passes.count msa_pass) mid
          (tail ++ unanchored passes)) := by
  induction passes generalizing k j tail with
  | nil => simp [mergeLoop, unanchored]
  | cons x rest ih =>
    have hne : msa_pass ≠ pqd_pass := by decide
    by_cases h1 : x = msa_pass
    · subst h1
      simp only [mergeLoop, mergeStep_shape_msa k j mid tail hmid, ih]
      simp [unanchored, hne, List.count_cons, Nat.add_comm, Nat.add_left_comm]
    · by_cases h2 : x = pqd_pass
      · subst h2
        simp only [mergeLoop, mergeStep_shape_pqd, ih]
        simp [unanchored, hne.symm, List.count_cons, Nat.add_comm, Nat.add_left_comm]
      · simp only [mergeLoop, mergeStep_shape_other k j mid tail x h1 h2, ih]
        have h1' : ¬ msa_pass = x := fun e => h1 e.symm
        have h2' : ¬ pqd_pass = x := fun e => h2 e.symm
        simp [unanchored, h1, h2, h1', h2', List.count_cons, List.filter_cons]

set_option maxRecDepth 100000 in
theorem prune_default_shape (flags : BuildFlags) (graphs_size : Nat) :
    prune graphs_size (passes_default flags)
        = mergedShape 0 0 (shapeMid flags graphs_size) (shapeTail flags graphs_size)
      ∧ msa_depend_pass ∉ shapeMid flags graphs_size := by
  obtain ⟨fpga, prof⟩ := flags
  by_cases h : graphs_size > 1
  · have hp : ∀ v, prune graphs_size v
        = eraseRemove (eraseRemove v "lite_conv_bn_fuse_pass") "__xpu__graph_dedup_pass" := by
      intro v; simp [prune, h]
    simp only [shapeMid, shapeTail, hp]
    cases fpga <;> cases prof <;> decide
  · have hp : ∀ v, prune graphs_size v = v := by
      intro v; simp [prune, h]
    simp only [shapeMid, shapeTail, hp]
    cases fpga <;> cases prof <;> decide

theorem fp16Loop_eq (valid_places : List Place) (merged : List String) :
    fp16Loop valid_places merged
      = merged ++ (if hasArmFp16 valid_places then [fp16_pass] else []) := by
  induction valid_places with
  | nil => simp [fp16Loop, hasArmFp16]
  | cons place rest ih =>
    by_cases h1 : place.target = TargetType.kARM
    · by_cases h2 : place.precision = PrecisionType.kFP16
      · simp [fp16Loop, hasArmFp16, h1, h2]
      · simpa [fp16Loop, hasArmFp16, h1, h2] using ih
    · simpa [fp16Loop, hasArmFp16, h1] using ih

theorem mergedShape_append (k j : Nat) (mid tail more : List String) :
    mergedShape k j mid tail ++ more = mergedShape k j mid (tail ++ more) := by
  simp [mergedShape]

theorem passes_local_shape (flags : BuildFlags) (graphs_size : Nat)
    (valid_places : List Place) (passes : List String) :
    passes_local flags graphs_size valid_places passes
      = .ok (mergedShape (passes.count pqd_pass) (passes.count msa_pass)
          (shapeMid flags graphs_size)
          ((shapeTail flags graphs_size ++ unanchored passes)
            ++ (if hasArmFp16 valid_places then [fp16_pass] else []))) := by
  obtain ⟨hs, hmid⟩ := prune_default_shape flags graphs_size
  have h := mergeLoop_shape passes 0 0 (shapeMid flags graphs_size)
    (shapeTail flags graphs_size) hmid
  simp only [Nat.zero_add] at h
  simp only [passes_local, hs, h, fp16Loop_eq, mergedShape_append]

theorem mem_insertAt (v : List String) (i : Nat) (x y : String) :
    x ∈ insertAt v i y ↔ x ∈ v ∨ x = y := by
  have h : x ∈ v ↔ x ∈ v.take i ∨ x ∈ v.drop i := by
    conv => lhs; rw [← List.take_append_drop i v]
    exact List.mem_append
  simp only [insertAt, List.mem_append, List.mem_cons, h]
  tauto

theorem mem_mergeStep (v next : List String) (p x : String)
    (h : mergeStep v p = .ok next) : x ∈ next ↔ x ∈ v ∨ x = p := by
  unfold mergeStep at h
  split at h
  · rename_i hp
    dsimp only at h
    split at h
    · cases h
    · cases h; rw [mem_insertAt, hp]
  · split at h
    · rename_i hp
      dsimp only at h
      split at h
      · cases h
      · cases h; rw [mem_insertAt, hp]
    · cases h; simp

theorem mem_mergeLoop (passes v merged : List String) (x : String)
    (h : mergeLoop v passes = .ok merged) : x ∈ merged ↔ x ∈ v ∨ x ∈ passes := by
  induction passes generalizing v with
  | nil => simp [mergeLoop] at h; simp [h]
  | cons p rest ih =>
    unfold mergeLoop at h
    split at h
    · cases h
    · rename_i next hstep
      rw [ih next h, mem_mergeStep v next p x hstep]
      simp only [List.mem_cons]
      tauto

theorem mem_passes_local (flags : BuildFlags) (graphs_size : Nat) (valid_places : List Place)
    (passes final : List String) (x : String)
    (h : passes_local flags graphs_size valid_places passes = .ok final) :
    x ∈ final ↔ x ∈ prune graphs_size (passes_default flags) ∨ x ∈ passes
      ∨ (hasArmFp16 valid_places = true ∧ x = fp16_pass) := by
  unfold passes_local at h
  split at h
  · cases h
  · rename_i merged hm
    cases h
    rw [fp16Loop_eq, List.mem_append, mem_mergeLoop passes _ merged x hm]
    by_cases hf : hasArmFp16 valid_places = true <;> simp [hf, or_assoc]

theorem getElem_opt_append_cons (A T : List String) (x : String) :
    (A ++ x :: T)[A.length]? = some x := by
  induction A with
  | nil => simp
  | cons a A ih => simpa using ih

/-! ## The assembled pass list: anchored extra passes -/

set_option maxRecDepth 100000 in
theorem shape_lacks_anchored (flags : BuildFlags) (graphs_size : Nat) :
    msa_pass ∉ shapeMid flags graphs_size ∧ msa_pass ∉ shapeTail flags graphs_size
    ∧ pqd_pass ∉ shapeMid flags graphs_size ∧ pqd_pass ∉ shapeTail flags graphs_size := by
  obtain ⟨fpga, prof⟩ := flags
  by_cases h : graphs_size > 1
  · have hp : ∀ v, prune graphs_size v
        = eraseRemove (eraseRemove v "lite_conv_bn_fuse_pass") "__xpu__graph_dedup_pass" := by
      intro v; simp [prune, h]
    simp only [shapeMid, shapeTail, hp]
    cases fpga <;> cases prof <;> decide
  · have hp : ∀ v, prune graphs_size v = v := by
      intro v; simp [prune, h]
    simp only [shapeMid, shapeTail, hp]
    cases fpga <;> cases prof <;> decide

theorem not_mem_unanchored (passes : List String) :
    msa_pass ∉ unanchored passes ∧ pqd_pass ∉ unanchored passes := by
  simp [unanchored, List.mem_filter]

/-- Claim C4: when the extra names contain `multi_stream_analysis_pass`, the list
handed to `RunPasses` is assembled without a failed check, its first
`runtime_context_assign_pass` sits at some index `i + 1`, and the element at
index `i`, immediately before it, is `multi_stream_analysis_pass`. Moreover the
copies of `multi_stream_analysis_pass`, as many as the caller gave, stand in one
run directly in front of that anchor, and the name occurs nowhere else in the
list, so none is appended at the end. -/
theorem C4_msa_immediately_before_anchor (flags : BuildFlags) (graphs_size : Nat)
    (valid_places : List Place) (passes : List String) (h : msa_pass ∈ passes) :
    ∃ (final : List String) (i : Nat),
      passes_local flags graphs_size valid_places passes = .ok final
      ∧ find final msa_depend_pass = i + 1
      ∧ i + 1 < final.length
      ∧ final[i]? = some msa_pass
      ∧ ∃ front rest,
          final = front ++ (List.replicate (passes.count msa_pass) msa_pass
            ++ msa_depend_pass :: rest)
          ∧ msa_depend_pass ∉ front ∧ msa_pass ∉ front ∧ msa_pass ∉ rest := by
  obtain ⟨_, hmid⟩ := prune_default_shape flags graphs_size
  obtain ⟨hm1, hm2, _, _⟩ := shape_lacks_anchored flags graphs_size
  obtain ⟨hu, _⟩ := not_mem_unanchored passes
  have hpos : 0 < passes.count msa_pass := List.count_pos_iff.mpr h
  obtain ⟨j, hj⟩ : ∃ j, passes.count msa_pass = j + 1 := ⟨passes.count msa_pass - 1, by omega⟩
  have hshape := passes_local_shape flags graphs_size valid_places passes
  have hrest : msa_pass ∉ (shapeTail flags graphs_size ++ unanchored passes)
      ++ (if hasArmFp16 valid_places then [fp16_pass] else []) := by
    have h3 : msa_pass ≠ fp16_pass := by decide
    by_cases hf : hasArmFp16 valid_places = true <;> simp [hf, hm2, hu, h3]
  rw [hj] at hshape ⊢
  generalize passes.count pqd_pass = k at hshape
  generalize (shapeTail flags graphs_size ++ unanchored passes)
      ++ (if hasArmFp16 valid_places then [fp16_pass] else []) = tail at hshape hrest
  -- the part of the list in front of the last inserted `msa_pass`
  let A : List String :=
    pqd_depend_pass :: (List.replicate k pqd_pass ++ (shapeMid flags graphs_size
      ++ List.replicate j msa_pass))
  have hsplit : mergedShape k (j + 1) (shapeMid flags graphs_size) tail
      = A ++ msa_pass :: msa_depend_pass :: tail := by
    simp only [mergedShape, ← replicate_append_cons j msa_pass, A]
    simp
  have h1 : msa_depend_pass ≠ pqd_depend_pass := by decide
  have h2 : msa_depend_pass ≠ pqd_pass := by decide
  have h3 : msa_depend_pass ≠ msa_pass := by decide
  have hA : msa_depend_pass ∉ A ++ [msa_pass] := by
    simp only [A, List.mem_cons, List.mem_append, List.mem_replicate, not_or, not_and,
      List.mem_singleton, List.not_mem_nil, or_false]
    exact ⟨⟨h1, fun _ => h2, hmid, fun _ => h3⟩, h3⟩
  refine ⟨_, A.length, hshape, ?_, ?_, ?_, ?_⟩
  · rw [hsplit]
    have := find_append_cons (A ++ [msa_pass]) tail msa_depend_pass hA
    simpa using this
  · rw [hsplit]; simp
  · rw [hsplit]; exact getElem_opt_append_cons A _ msa_pass
  · refine ⟨pqd_depend_pass :: (List.replicate k pqd_pass ++ shapeMid flags graphs_size),
      tail, ?_, ?_, ?_, hrest⟩
    · simp [mergedShape]
    · simp only [List.mem_cons, List.mem_append, List.mem_replicate, not_or, not_and]
      exact ⟨h1, fun _ => h2, hmid⟩
    · have h4 : msa_pass ≠ pqd_depend_pass := by decide
      have h5 : msa_pass ≠ pqd_pass := by decide
      simp only [List.mem_cons, List.mem_append, List.mem_replicate, not_or, not_and]
      exact ⟨h4, fun _ => h5, hm1⟩

/-- Witness of C4 at the extra list `["multi_stream_analysis_pass"]`. -/
theorem C4_msa_immediately_before_anchor_witness :
    msa_pass ∈ ["multi_stream_analysis_pass"]
    ∧ ∃ (final : List String) (i : Nat),
      passes_local ⟨false, false⟩ 1 [⟨TargetType.kHost, PrecisionType.kFloat, DataLayoutType.kNCHW⟩]
          ["multi_stream_analysis_pass"] = .ok final
      ∧ find final msa_depend_pass = i + 1
      ∧ i + 1 < final.length
      ∧ final[i]? = some msa_pass
      ∧ ∃ front rest,
          final = front ++ (List.replicate (["multi_stream_analysis_pass"].count msa_pass) msa_pass
            ++ msa_depend_pass :: rest)
          ∧ msa_depend_pass ∉ front ∧ msa_pass ∉ front ∧ msa_pass ∉ rest :=
  ⟨by decide, C4_msa_immediately_before_anchor _ _ _ _ (by decide)⟩

/-- Claim C5: when the extra names contain `post_quant_dynamic_pass`, the list
handed to `RunPasses` is assembled without a failed check, its first
`lite_quant_dequant_fuse_pass` sits at some index `i`, and the element at index
`i + 1`, immediately after it, is `post_quant_dynamic_pass`. Moreover the copies
of `post_quant_dynamic_pass`, as many as the caller gave, stand in one run
directly behind that anchor, which heads the list, and the name occurs nowhere
else in the list, so none is appended at the end. -/
theorem C5_pqd_immediately_after_anchor (flags : BuildFlags) (graphs_size : Nat)
    (valid_places : List Place) (passes : List String) (h : pqd_pass ∈ passes) :
    ∃ (final : List String) (i : Nat),
      passes_local flags graphs_size valid_places passes = .ok final
      ∧ find final pqd_depend_pass = i
      ∧ i < final.length
      ∧ final[i + 1]? = some pqd_pass
      ∧ ∃ rest,
          final = pqd_depend_pass :: (List.replicate (passes.count pqd_pass) pqd_pass ++ rest)
          ∧ pqd_pass ∉ rest := by
  obtain ⟨_, _, hp1, hp2⟩ := shape_lacks_anchored flags graphs_size
  obtain ⟨_, hu⟩ := not_mem_unanchored passes
  have hpos : 0 < passes.count pqd_pass := List.count_pos_iff.mpr h
  obtain ⟨k, hk⟩ : ∃ k, passes.count pqd_pass = k + 1 := ⟨passes.count pqd_pass - 1, by omega⟩
  have hshape := passes_local_shape flags graphs_size valid_places passes
  rw [hk] at hshape ⊢
  refine ⟨_, 0, hshape, ?_, ?_, ?_, _, rfl, ?_⟩
  · simp [mergedShape, find]
  · simp [mergedShape]
  · simp [mergedShape, List.replicate_succ]
  · have h1 : pqd_pass ≠ msa_pass := by decide
    have h2 : pqd_pass ≠ msa_depend_pass := by decide
    have h3 : pqd_pass ≠ fp16_pass := by decide
    by_cases hf : hasArmFp16 valid_places = true <;>
      simp [hf, hp1, hp2, hu, h1, h2, h3, List.mem_replicate]

/-- Witness of C5 at the extra list `["post_quant_dynamic_pass"]`. -/
theorem C5_pqd_immediately_after_anchor_witness :
    pqd_pass ∈ ["post_quant_dynamic_pass"]
    ∧ ∃ (final : List String) (i : Nat),
      passes_local ⟨false, false⟩ 1 [⟨TargetType.kHost, PrecisionType.kFloat, DataLayoutType.kNCHW⟩]
          ["post_quant_dynamic_pass"] = .ok final
      ∧ find final pqd_depend_pass = i
      ∧ i < final.length
      ∧ final[i + 1]? = some pqd_pass
      ∧ ∃ rest,
          final = pqd_depend_pass
            :: (List.replicate (["post_quant_dynamic_pass"].count pqd_pass) pqd_pass ++ rest)
          ∧ pqd_pass ∉ rest :=
  ⟨by decide, C5_pqd_immediately_after_anchor _ _ _ _ (by decide)⟩

/-- Claim C6: the merge step on a current list without the anchor. Merging
`multi_stream_analysis_pass` into a list without `runtime_context_assign_pass`,
or `post_quant_dynamic_pass` into a list without `lite_quant_dequant_fuse_pass`,
fails the check with the message "No find <anchor>" and returns no list. -/
theorem C6_missing_anchor_is_fatal (v : List String) :
    (msa_depend_pass ∉ v →
      mergeStep v msa_pass = .error "No find runtime_context_assign_pass"
      ∧ ∀ next, mergeStep v msa_pass ≠ .ok next)
    ∧ (pqd_depend_pass ∉ v →
      mergeStep v pqd_pass = .error "No find lite_quant_dequant_fuse_pass"
      ∧ ∀ next, mergeStep v pqd_pass ≠ .ok next) := by
  constructor
  · intro h
    have hf : find v msa_depend_pass = v.length := (find_eq_length_iff v _).mpr h
    have he : mergeStep v msa_pass = .error "No find runtime_context_assign_pass" := by
      simp only [mergeStep, if_true, hf]
      rfl
    exact ⟨he, fun next hn => by rw [he] at hn; cases hn⟩
  · intro h
    have hf : find v pqd_depend_pass = v.length := (find_eq_length_iff v _).mpr h
    have hne : pqd_pass ≠ msa_pass := by decide
    have he : mergeStep v pqd_pass = .error "No find lite_quant_dequant_fuse_pass" := by
      simp only [mergeStep, hne, if_false, if_true, hf]
      rfl
    exact ⟨he, fun next hn => by rw [he] at hn; cases hn⟩

/-- Witness of C6 at the current list `["static_kernel_pick_pass"]`, which holds
neither anchor. -/
theorem C6_missing_anchor_is_fatal_witness :
    (msa_depend_pass ∉ ["static_kernel_pick_pass"]
      ∧ mergeStep ["static_kernel_pick_pass"] msa_pass
          = .error "No find runtime_context_assign_pass")
    ∧ (pqd_depend_pass ∉ ["static_kernel_pick_pass"]
      ∧ mergeStep ["static_kernel_pick_pass"] pqd_pass
          = .error "No find lite_quant_dequant_fuse_pass") :=
  ⟨⟨by decide, ((C6_missing_anchor_is_fatal ["static_kernel_pick_pass"]).1 (by decide)).1⟩,
   ⟨by decide, ((C6_missing_anchor_is_fatal ["static_kernel_pick_pass"]).2 (by decide)).1⟩⟩

theorem mergeLoop_unanchored (passes v : List String) (h1 : msa_pass ∉ passes)
    (h2 : pqd_pass ∉ passes) : mergeLoop v passes = .ok (v ++ passes) := by
  induction passes generalizing v with
  | nil => simp [mergeLoop]
  | cons p rest ih =>
    have hp1 : p ≠ msa_pass := fun e => h1 (by simp [e])
    have hp2 : p ≠ pqd_pass := fun e => h2 (by simp [e])
    have hr1 : msa_pass ∉ rest := fun e => h1 (by simp [e])
    have hr2 : pqd_pass ∉ rest := fun e => h2 (by simp [e])
    simp only [mergeLoop, mergeStep_other v p hp1 hp2, ih _ hr1 hr2]
    simp

/-- Claim C7: when the extra names contain neither `multi_stream_analysis_pass` nor
`post_quant_dynamic_pass`, the merge loop returns the (possibly pruned) default
list followed by the extra names as given, and the list handed to `RunPasses`
is that list, or that list followed by one `fp16_attribute_pass`. -/
theorem C7_unanchored_extras_appended_in_order (flags : BuildFlags) (graphs_size : Nat)
    (valid_places : List Place) (passes : List String)
    (h1 : msa_pass ∉ passes) (h2 : pqd_pass ∉ passes) :
    mergeLoop (prune graphs_size (passes_default flags)) passes
        = .ok (prune graphs_size (passes_default flags) ++ passes)
    ∧ (passes_local flags graphs_size valid_places passes
          = .ok (prune graphs_size (passes_default flags) ++ passes)
       ∨ passes_local flags graphs_size valid_places passes
          = .ok ((prune graphs_size (passes_default flags) ++ passes) ++ [fp16_pass])) := by
  have hm := mergeLoop_unanchored passes (prune graphs_size (passes_default flags)) h1 h2
  refine ⟨hm, ?_⟩
  simp only [passes_local, hm, fp16Loop_eq]
  by_cases hf : hasArmFp16 valid_places = true
  · right; simp [hf]
  · left; simp [hf]

/-- Witness of C7 at two extra names given twice over, in a chosen order. -/
theorem C7_unanchored_extras_appended_in_order_witness :
    msa_pass ∉ ["b_pass", "a_pass", "b_pass"]
    ∧ pqd_pass ∉ ["b_pass", "a_pass", "b_pass"]
    ∧ mergeLoop (prune 2 (passes_default ⟨false, false⟩)) ["b_pass", "a_pass", "b_pass"]
        = .ok (prune 2 (passes_default ⟨false, false⟩) ++ ["b_pass", "a_pass", "b_pass"])
    ∧ (passes_local ⟨false, false⟩ 2 [⟨TargetType.kARM, PrecisionType.kFP16, DataLayoutType.kNCHW⟩]
          ["b_pass", "a_pass", "b_pass"]
          = .ok (prune 2 (passes_default ⟨false, false⟩) ++ ["b_pass", "a_pass", "b_pass"])
       ∨ passes_local ⟨false, false⟩ 2
          [⟨TargetType.kARM, PrecisionType.kFP16, DataLayoutType.kNCHW⟩]
          ["b_pass", "a_pass", "b_pass"]
          = .ok ((prune 2 (passes_default ⟨false, false⟩) ++ ["b_pass", "a_pass", "b_pass"])
              ++ [fp16_pass])) :=
  ⟨by decide, by decide,
   C7_unanchored_extras_appended_in_order ⟨false, false⟩ 2
    [⟨TargetType.kARM, PrecisionType.kFP16, DataLayoutType.kNCHW⟩]
    ["b_pass", "a_pass", "b_pass"] (by decide) (by decide)⟩

/-! ## The assembled pass list: pruning -/

set_option maxRecDepth 100000 in
theorem pruned_default_lacks (flags : BuildFlags) (graphs_size : Nat) (h : 1 < graphs_size) :
    "lite_conv_bn_fuse_pass" ∉ prune graphs_size (passes_default flags)
    ∧ "__xpu__graph_dedup_pass" ∉ prune graphs_size (passes_default flags) := by
  obtain ⟨fpga, prof⟩ := flags
  have hp : ∀ v, prune graphs_size v
      = eraseRemove (eraseRemove v "lite_conv_bn_fuse_pass") "__xpu__graph_dedup_pass" := by
    intro v; simp [prune, h]
  simp only [hp]
  cases fpga <;> cases prof <;> decide

set_option maxRecDepth 100000 in
theorem default_has (flags : BuildFlags) :
    "lite_conv_bn_fuse_pass" ∈ passes_default flags
    ∧ "__xpu__graph_dedup_pass" ∈ passes_default flags
    ∧ fp16_pass ∉ passes_default flags := by
  obtain ⟨fpga, prof⟩ := flags
  cases fpga <;> cases prof <;> decide

/-- Counterexample to C8 as stated: with two blocks and the extra name
`lite_conv_bn_fuse_pass`, the list handed to `RunPasses` ends in that name. -/
theorem C8_counterexample :
    ∃ final, passes_local ⟨false, false⟩ 2
        [⟨TargetType.kHost, PrecisionType.kFloat, DataLayoutType.kNCHW⟩]
        ["lite_conv_bn_fuse_pass"] = .ok final
      ∧ "lite_conv_bn_fuse_pass" ∈ final
      ∧ final.getLast? = some "lite_conv_bn_fuse_pass" := by
  refine ⟨_, rfl, ?_, ?_⟩ <;> decide

/-- Claim C8, amended: with more than one graph the list handed to `RunPasses` is
assembled without a failed check, and it contains `lite_conv_bn_fuse_pass`
(likewise `__xpu__graph_dedup_pass`) exactly when the caller gave that name as an
extra pass; so with extra names that hold neither, the list holds neither. -/
theorem C8_pruned_names_only_from_extras (flags : BuildFlags) (graphs_size : Nat)
    (valid_places : List Place) (passes : List String) (h : 1 < graphs_size) :
    ∃ final, passes_local flags graphs_size valid_places passes = .ok final
      ∧ ("lite_conv_bn_fuse_pass" ∈ final ↔ "lite_conv_bn_fuse_pass" ∈ passes)
      ∧ ("__xpu__graph_dedup_pass" ∈ final ↔ "__xpu__graph_dedup_pass" ∈ passes) := by
  have hshape := passes_local_shape flags graphs_size valid_places passes
  obtain ⟨hbn, hdd⟩ := pruned_default_lacks flags graphs_size h
  have e1 : ¬ ("lite_conv_bn_fuse_pass" = fp16_pass) := by decide
  have e2 : ¬ ("__xpu__graph_dedup_pass" = fp16_pass) := by decide
  refine ⟨_, hshape, ?_, ?_⟩
  · rw [mem_passes_local flags graphs_size valid_places passes _ _ hshape]
    simp [hbn, e1]
  · rw [mem_passes_local flags graphs_size valid_places passes _ _ hshape]
    simp [hdd, e2]

/-- Witness of C8 (amended) with three graphs and an extra list holding neither
name. -/
theorem C8_pruned_names_only_from_extras_witness :
    1 < 3
    ∧ ∃ final, passes_local ⟨false, false⟩ 3
          [⟨TargetType.kHost, PrecisionType.kFloat, DataLayoutType.kNCHW⟩]
          ["multi_stream_analysis_pass"] = .ok final
      ∧ ("lite_conv_bn_fuse_pass" ∈ final
          ↔ "lite_conv_bn_fuse_pass" ∈ ["multi_stream_analysis_pass"])
      ∧ ("__xpu__graph_dedup_pass" ∈ final
          ↔ "__xpu__graph_dedup_pass" ∈ ["multi_stream_analysis_pass"]) :=
  ⟨by decide, C8_pruned_names_only_from_extras _ _ _ _ (by decide)⟩

/-- Claim C9: with exactly one graph nothing is pruned; the list handed to
`RunPasses` is assembled without a failed check and contains both
`lite_conv_bn_fuse_pass` and `__xpu__graph_dedup_pass`; and with no extra names
and no place of target ARM and precision FP16 it is the default list itself. -/
theorem C9_single_block_keeps_default (flags : BuildFlags) (valid_places : List Place)
    (passes : List String) :
    prune 1 (passes_default flags) = passes_default flags
    ∧ (∃ final, passes_local flags 1 valid_places passes = .ok final
        ∧ "lite_conv_bn_fuse_pass" ∈ final ∧ "__xpu__graph_dedup_pass" ∈ final)
    ∧ ((∀ place ∈ valid_places,
          ¬ (place.target = TargetType.kARM ∧ place.precision = PrecisionType.kFP16)) →
        passes_local flags 1 valid_places [] = .ok (passes_default flags)) := by
  have hp : prune 1 (passes_default flags) = passes_default flags := by simp [prune]
  obtain ⟨hbn, hdd, _⟩ := default_has flags
  refine ⟨hp, ?_, ?_⟩
  · have hshape := passes_local_shape flags 1 valid_places passes
    refine ⟨_, hshape, ?_, ?_⟩
    · rw [mem_passes_local flags 1 valid_places passes _ _ hshape, hp]
      exact Or.inl hbn
    · rw [mem_passes_local flags 1 valid_places passes _ _ hshape, hp]
      exact Or.inl hdd
  · intro hno
    have hf : hasArmFp16 valid_places = false := by
      simp only [hasArmFp16, List.any_eq_false, Bool.and_eq_true, decide_eq_true_eq]
      exact hno
    simp [passes_local, mergeLoop, hp, fp16Loop_eq, hf]

/-- Witness of C9 at the valid places `[{ARM, FP32, NCHW}, {Host, FP16, NCHW}]`,
none of which has both target ARM and precision FP16. -/
theorem C9_single_block_keeps_default_witness :
    (∀ place ∈ [(⟨TargetType.kARM, PrecisionType.kFloat, DataLayoutType.kNCHW⟩ : Place),
                ⟨TargetType.kHost, PrecisionType.kFP16, DataLayoutType.kNCHW⟩],
        ¬ (place.target = TargetType.kARM ∧ place.precision = PrecisionType.kFP16))
    ∧ passes_local ⟨false, false⟩ 1
        [⟨TargetType.kARM, PrecisionType.kFloat, DataLayoutType.kNCHW⟩,
         ⟨TargetType.kHost, PrecisionType.kFP16, DataLayoutType.kNCHW⟩] []
      = .ok (passes_default ⟨false, false⟩) :=
  ⟨by decide,
   (C9_single_block_keeps_default ⟨false, false⟩
      [⟨TargetType.kARM, PrecisionType.kFloat, DataLayoutType.kNCHW⟩,
       ⟨TargetType.kHost, PrecisionType.kFP16, DataLayoutType.kNCHW⟩] []).2.2 (by decide)⟩

/-! ## The assembled pass list: the FP16 attribute pass -/

theorem hasArmFp16_iff (valid_places : List Place) :
    hasArmFp16 valid_places = true
      ↔ ∃ place ∈ valid_places,
          place.target = TargetType.kARM ∧ place.precision = PrecisionType.kFP16 := by
  simp [hasArmFp16]

/-- Claim C10: the FP16 loop of `Run`. When some valid place has target ARM and
precision FP16 the loop appends `fp16_attribute_pass` once, as the last element,
however many such places there are; when no place has both, the list is left as
it is. With no extra names, the list handed to `RunPasses` contains
`fp16_attribute_pass` for the valid places `[{ARM, FP16, NCHW}]` and does not
contain it for `[{ARM, FP32, NCHW}]`. -/
theorem C10_fp16_pass_appended_once (valid_places : List Place) (merged : List String)
    (flags : BuildFlags) (graphs_size : Nat) :
    ((∃ place ∈ valid_places,
        place.target = TargetType.kARM ∧ place.precision = PrecisionType.kFP16) →
      fp16Loop valid_places merged = merged ++ [fp16_pass])
    ∧ ((∀ place ∈ valid_places,
        ¬ (place.target = TargetType.kARM ∧ place.precision = PrecisionType.kFP16)) →
      fp16Loop valid_places merged = merged)
    ∧ (∃ final, passes_local flags graphs_size
          [⟨TargetType.kARM, PrecisionType.kFP16, DataLayoutType.kNCHW⟩] [] = .ok final
        ∧ fp16_pass ∈ final ∧ final.count fp16_pass = 1)
    ∧ (∃ final, passes_local flags graphs_size
          [⟨TargetType.kARM, PrecisionType.kFloat, DataLayoutType.kNCHW⟩] [] = .ok final
        ∧ fp16_pass ∉ final) := by
  have hnd : fp16_pass ∉ prune graphs_size (passes_default flags) := by
    obtain ⟨_, _, h⟩ := default_has flags
    intro hm
    apply h
    unfold prune at hm
    split at hm
    · exact (List.mem_filter.mp (List.mem_filter.mp hm).1).1
    · exact hm
  refine ⟨?_, ?_, ?_, ?_⟩
  · intro h
    have hf : hasArmFp16 valid_places = true := (hasArmFp16_iff valid_places).mpr h
    simp [fp16Loop_eq, hf]
  · intro h
    have hf : hasArmFp16 valid_places = false := by
      cases hc : hasArmFp16 valid_places
      · rfl
      · obtain ⟨place, hp, hq⟩ := (hasArmFp16_iff valid_places).mp hc
        exact absurd hq (h place hp)
    simp [fp16Loop_eq, hf]
  · refine ⟨prune graphs_size (passes_default flags) ++ [fp16_pass], ?_, ?_, ?_⟩
    · simp [passes_local, mergeLoop, fp16Loop]
    · simp
    · rw [List.count_append, List.count_eq_zero_of_not_mem hnd]
      simp
  · refine ⟨prune graphs_size (passes_default flags), ?_, hnd⟩
    simp [passes_local, mergeLoop, fp16Loop]

/-- Witness of C10: two places with target ARM and precision FP16 append the name
once; a list of places without such a place appends nothing. -/
theorem C10_fp16_pass_appended_once_witness :
    fp16Loop [⟨TargetType.kARM, PrecisionType.kFP16, DataLayoutType.kNCHW⟩,
              ⟨TargetType.kHost, PrecisionType.kFloat, DataLayoutType.kNCHW⟩,
              ⟨TargetType.kARM, PrecisionType.kFP16, DataLayoutType.kNHWC⟩]
        ["static_kernel_pick_pass"]
      = ["static_kernel_pick_pass"] ++ [fp16_pass]
    ∧ fp16Loop [⟨TargetType.kARM, PrecisionType.kFloat, DataLayoutType.kNCHW⟩,
                ⟨TargetType.kHost, PrecisionType.kFP16, DataLayoutType.kNCHW⟩]
        ["static_kernel_pick_pass"]
      = ["static_kernel_pick_pass"] :=
  ⟨(C10_fp16_pass_appended_once
      [⟨TargetType.kARM, PrecisionType.kFP16, DataLayoutType.kNCHW⟩,
       ⟨TargetType.kHost, PrecisionType.kFloat, DataLayoutType.kNCHW⟩,
       ⟨TargetType.kARM, PrecisionType.kFP16, DataLayoutType.kNHWC⟩]
      ["static_kernel_pick_pass"] ⟨false, false⟩ 1).1
      ⟨⟨TargetType.kARM, PrecisionType.kFP16, DataLayoutType.kNCHW⟩, by decide, by decide⟩,
   (C10_fp16_pass_appended_once
      [⟨TargetType.kARM, PrecisionType.kFloat, DataLayoutType.kNCHW⟩,
       ⟨TargetType.kHost, PrecisionType.kFP16, DataLayoutType.kNCHW⟩]
      ["static_kernel_pick_pass"] ⟨false, false⟩ 1).2.1 (by decide)⟩

/-! ## Lemmas on `Run` and `RunPasses` -/

section RunLemmas

variable {B G : Type}

theorem Result.bind_eq_ok {σ : Type} (r : Result σ) (k : σ → Result σ) (s : σ) :
    r.bind k = .ok s ↔ ∃ mid, r = .ok mid ∧ k mid = .ok s := by
  cases r <;> simp [Result.bind]

theorem CHECK_eq_ok {σ : Type} (x : Bool) (expr msg : String) (s final : σ) :
    CHECK x expr msg s = .ok final ↔ x = true ∧ final = s := by
  cases x <;> simp [CHECK, eq_comm]

theorem buildGraphs_eq (env : Env B G) (program : Program B) (valid_places : List Place)
    (block_size : Nat) (self : Optimizer B G) :
    buildGraphs env program valid_places block_size self
      = { self with
          graphs_ := self.graphs_
            ++ (List.range block_size).map (builtGraph env program valid_places),
          trace := self.trace ++ (List.range block_size).map Event.Build } := by
  induction block_size with
  | zero => simp [buildGraphs]
  | succ n ih =>
    unfold buildGraphs at ih ⊢
    rw [List.range_succ, List.foldl_append, ih]
    simp [builtGraph]

theorem RunPasses.step_length (env : Env B G) (self final : Optimizer B G) (x : String)
    (h : RunPasses.step env self x = .ok final) :
    final.graphs_.length = self.graphs_.length := by
  unfold RunPasses.step at h
  split at h
  · cases h; rfl
  · dsimp only at h
    split at h
    · cases h; rfl
    · split at h
      · split at h
        · cases h
        · rename_i heq
          cases h
          simp [heq]
      · cases h; simp

theorem RunPasses_length (env : Env B G) (passes : List String) (self final : Optimizer B G)
    (h : RunPasses env passes self = .ok final) :
    final.graphs_.length = self.graphs_.length := by
  induction passes generalizing self with
  | nil => simp [RunPasses] at h; rw [h]
  | cons x rest ih =>
    unfold RunPasses at h
    obtain ⟨mid, h1, h2⟩ := (Result.bind_eq_ok _ _ _).mp h
    rw [ih mid h2, RunPasses.step_length env self mid x h1]

end RunLemmas

section RunLemmas2

variable {B G : Type}

/-- On a non-empty graph list one round of `RunPasses` returns normally, touches
only `graphs_` and `trace`, and rewrites the graph at every index `i` as
`applyTo` says. -/
theorem RunPasses.step_ok (env : Env B G) (self : Optimizer B G) (x : String)
    (hne : self.graphs_ ≠ []) :
    ∃ final, RunPasses.step env self x = .ok final
      ∧ final.valid_places_ = self.valid_places_
      ∧ final.program_ = self.program_
      ∧ final.exec_scope_ = self.exec_scope_
      ∧ ∀ i, final.graphs_[i]?
          = (self.graphs_[i]?).map (fun g => applyTo env self.valid_places_ i g x) := by
  unfold RunPasses.step
  cases hl : env.LookUp x with
  | none =>
    refine ⟨self, rfl, rfl, rfl, rfl, fun i => ?_⟩
    simp [applyTo, hl]
  | some pass =>
    dsimp only
    by_cases hm : (pass.matchesTarget
        (self.valid_places_.map (fun place => place.target)).toFinset
          && pass.matchesKernels) = true
    · by_cases hs : x ∈ kSubblockUnsupportedPasses
      · cases hg : self.graphs_ with
        | nil => exact absurd hg hne
        | cons root subblocks =>
          simp only [hm, hs, Bool.not_true, if_true, if_false, Bool.false_eq_true]
          refine ⟨_, rfl, rfl, rfl, rfl, fun i => ?_⟩
          cases i with
          | zero => simp [applyTo, hl, hm, hs, kRootBlockIdx]
          | succ i => simp [applyTo, hl, hm, hs, kRootBlockIdx]
      · simp only [hm, hs, Bool.not_true, if_true, if_false, Bool.false_eq_true]
        refine ⟨_, rfl, rfl, rfl, rfl, fun i => ?_⟩
        simp [applyTo, hl, hm, hs]
    · have hm2 : (pass.matchesTarget
          (self.valid_places_.map (fun place => place.target)).toFinset
            && pass.matchesKernels) = false := by simpa using hm
      simp only [hm2, Bool.not_false, if_true]
      refine ⟨self, rfl, rfl, rfl, rfl, fun i => ?_⟩
      simp [applyTo, hl, hm2]

/-- On a non-empty graph list `RunPasses` returns normally for every pass list,
and the graph at index `i` is rewritten by the entries of the list in order. -/
theorem RunPasses_ok (env : Env B G) (passes : List String) (self : Optimizer B G)
    (hne : self.graphs_ ≠ []) :
    ∃ final, RunPasses env passes self = .ok final
      ∧ final.valid_places_ = self.valid_places_
      ∧ final.program_ = self.program_
      ∧ final.exec_scope_ = self.exec_scope_
      ∧ ∀ i, final.graphs_[i]?
          = (self.graphs_[i]?).map
              (fun g => passes.foldl (applyTo env self.valid_places_ i) g) := by
  induction passes generalizing self with
  | nil =>
    refine ⟨self, rfl, rfl, rfl, rfl, fun i => ?_⟩
    simp
  | cons x rest ih =>
    obtain ⟨mid, h1, hv, hp, he, hg⟩ := RunPasses.step_ok env self x hne
    have hlen := RunPasses.step_length env self mid x h1
    have hne2 : mid.graphs_ ≠ [] := by
      intro h0
      rw [h0] at hlen
      exact hne (List.length_eq_zero.mp hlen.symm)
    obtain ⟨final, h2, hv2, hp2, he2, hg2⟩ := ih mid hne2
    refine ⟨final, ?_, hv2.trans hv, hp2.trans hp, he2.trans he, fun i => ?_⟩
    · simp [RunPasses, h1, Result.bind, h2]
    · rw [hg2 i, hg i, hv]
      cases self.graphs_[i]? <;> simp

end RunLemmas2

section RunClaims

variable {B G : Type}

theorem InitTargetTypeTransformPass_eq_ok (env : Env B G) (self final : Optimizer B G) :
    InitTargetTypeTransformPass env self = .ok final
      ↔ (env.LookUp "type_target_cast_pass").isSome = true
        ∧ self.valid_places_.isEmpty = false
        ∧ final = { self with
            trace := self.trace ++ [Event.SetValidPlaces "type_target_cast_pass"] } := by
  unfold InitTargetTypeTransformPass
  simp only [Result.bind_eq_ok, CHECK_eq_ok, Result.ok.injEq]
  constructor
  · rintro ⟨m1, ⟨h1, rfl⟩, m2, ⟨h2, rfl⟩, h3⟩
    exact ⟨h1, by simpa using h2, h3.symm⟩
  · rintro ⟨h1, h2, h3⟩
    exact ⟨self, ⟨h1, rfl⟩, self, ⟨by simpa using h2, rfl⟩, h3.symm⟩

theorem InitControlFlowOpUnusedInputsAndOutputsEliminatePass_eq_ok (env : Env B G)
    (self final : Optimizer B G) :
    InitControlFlowOpUnusedInputsAndOutputsEliminatePass env self = .ok final
      ↔ (env.LookUp "control_flow_op_unused_inputs_and_outputs_eliminate_pass").isSome = true
        ∧ self.graphs_.isEmpty = false
        ∧ final = { self with
            trace := self.trace ++
              [Event.SetAllGraphs "control_flow_op_unused_inputs_and_outputs_eliminate_pass"] } := by
  unfold InitControlFlowOpUnusedInputsAndOutputsEliminatePass
  simp only [Result.bind_eq_ok, CHECK_eq_ok, Result.ok.injEq]
  constructor
  · rintro ⟨m1, ⟨h1, rfl⟩, m2, ⟨h2, rfl⟩, h3⟩
    exact ⟨h1, by simpa using h2, h3.symm⟩
  · rintro ⟨h1, h2, h3⟩
    exact ⟨self, ⟨h1, rfl⟩, self, ⟨by simpa using h2, rfl⟩, h3.symm⟩

theorem InitControlFlowOpSharedInputsAndOutputsPlaceSyncPass_eq_ok (env : Env B G)
    (self final : Optimizer B G) :
    InitControlFlowOpSharedInputsAndOutputsPlaceSyncPass env self = .ok final
      ↔ (env.LookUp "control_flow_op_shared_inputs_and_outputs_place_sync_pass").isSome = true
        ∧ self.graphs_.isEmpty = false
        ∧ final = { self with
            trace := self.trace ++
              [Event.SetAllGraphs "control_flow_op_shared_inputs_and_outputs_place_sync_pass"] } := by
  unfold InitControlFlowOpSharedInputsAndOutputsPlaceSyncPass
  simp only [Result.bind_eq_ok, CHECK_eq_ok, Result.ok.injEq]
  constructor
  · rintro ⟨m1, ⟨h1, rfl⟩, m2, ⟨h2, rfl⟩, h3⟩
    exact ⟨h1, by simpa using h2, h3.symm⟩
  · rintro ⟨h1, h2, h3⟩
    exact ⟨self, ⟨h1, rfl⟩, self, ⟨by simpa using h2, rfl⟩, h3.symm⟩

/-- A run that returns normally leaves at least one graph in `graphs_`. -/
theorem Run_ok_graphs_ne_nil (env : Env B G) (program : Program B)
    (valid_places : List Place) (factor : KernelPickFactor) (passes : List String)
    (self final : Optimizer B G)
    (h : Run env program valid_places factor passes self = .ok final) :
    final.graphs_ ≠ [] := by
  unfold Run at h
  simp only [Result.bind_eq_ok, CHECK_eq_ok, InitTargetTypeTransformPass_eq_ok,
    InitControlFlowOpUnusedInputsAndOutputsEliminatePass_eq_ok,
    InitControlFlowOpSharedInputsAndOutputsPlaceSyncPass_eq_ok] at h
  obtain ⟨m1, ⟨_, rfl⟩, m2, ⟨_, rfl⟩, m3, ⟨_, _, rfl⟩, m4, ⟨_, hne, rfl⟩, m5, ⟨_, _, rfl⟩, h⟩ := h
  split at h
  · cases h
  · obtain ⟨m6, hrun, hfin⟩ := (Result.bind_eq_ok _ _ _).mp h
    cases hfin
    have hlen := RunPasses_length env _ _ m6 hrun
    intro h0
    have h0' : m6.graphs_ = [] := h0
    rw [h0'] at hlen
    have : (SpecifyKernelPickTactic factor
        (buildGraphs env program valid_places program.block_size
          { self with program_ := some program, valid_places_ := valid_places })).graphs_ = [] :=
      List.length_eq_zero.mp hlen.symm
    rw [this] at hne
    simp at hne

end RunClaims

/-! ## The fatal checks of `Run` and the graphs it builds -/

section RunClaims2

variable {B G : Type}

/-- Claim C1: `Run` with an empty `valid_places` fails the check
`CHECK(!valid_places.empty())`, whatever the program, the factor, the extra
passes and the state of the Optimizer; at that moment only `program_` and
`valid_places_` have been assigned: no graph has been built and no call has
been made on a graph or a pass. -/
theorem C1_empty_valid_places_is_fatal (env : Env B G) (program : Program B)
    (kernel_pick_factor : KernelPickFactor) (passes : List String) (self : Optimizer B G) :
    ∃ s, Run env program [] kernel_pick_factor passes self
        = .fatal "!valid_places.empty()" "At least one valid_place should be set" s
      ∧ s.graphs_ = self.graphs_
      ∧ s.trace = self.trace
      ∧ s.exec_scope_ = self.exec_scope_ :=
  ⟨{ self with program_ := some program, valid_places_ := [] }, rfl, rfl, rfl, rfl⟩

/-- Claim C2: once a call of `Run` has returned normally in state `after`, any
further call of `Run` on that state with a non-empty `valid_places` fails the
check `CHECK(graphs_.empty())` with "duplicate optimize found"; the graphs and
the trace of calls are those the first run left. -/
theorem C2_second_run_is_fatal (env env2 : Env B G) (program program2 : Program B)
    (valid_places valid_places2 : List Place) (factor factor2 : KernelPickFactor)
    (passes passes2 : List String) (self after : Optimizer B G)
    (h : Run env program valid_places factor passes self = .ok after)
    (hvp : valid_places2 ≠ []) :
    ∃ s, Run env2 program2 valid_places2 factor2 passes2 after
        = .fatal "graphs_.empty()" "duplicate optimize found" s
      ∧ s.graphs_ = after.graphs_
      ∧ s.trace = after.trace := by
  have hne := Run_ok_graphs_ne_nil env program valid_places factor passes self after h
  refine ⟨{ after with program_ := some program2, valid_places_ := valid_places2 },
    ?_, rfl, rfl⟩
  have h1 : valid_places2.isEmpty = false := by
    cases valid_places2 with
    | nil => exact absurd rfl hvp
    | cons a l => rfl
  have h2 : after.graphs_.isEmpty = false := by
    cases hg : after.graphs_ with
    | nil => exact absurd hg hne
    | cons a l => rfl
  simp [Run, CHECK, Result.bind, h1, h2]

set_option maxRecDepth 100000 in
/-- Witness of C2: the first run is the one that ends in `exampleAfter`; the second
run, on another program and with an extra pass, fails. -/
theorem C2_second_run_is_fatal_witness :
    Run exampleEnv { blocks := [()], exec_scope := some 3 } examplePlaces exampleFactor []
        (Optimizer.new Unit Nat) = .ok exampleAfter
    ∧ examplePlaces ≠ []
    ∧ ∃ s, Run exampleEnv { blocks := [(), ()], exec_scope := some 4 } examplePlaces
          exampleFactor ["multi_stream_analysis_pass"] exampleAfter
        = .fatal "graphs_.empty()" "duplicate optimize found" s
      ∧ s.graphs_ = exampleAfter.graphs_
      ∧ s.trace = exampleAfter.trace :=
  ⟨rfl, by decide,
   C2_second_run_is_fatal exampleEnv exampleEnv { blocks := [()], exec_scope := some 3 }
     { blocks := [(), ()], exec_scope := some 4 } examplePlaces examplePlaces
     exampleFactor exampleFactor [] ["multi_stream_analysis_pass"]
     (Optimizer.new Unit Nat) exampleAfter rfl (by decide)⟩

/-- Counterexample to C3 as stated: for a program without blocks and the valid
places `[{Host, FP32, NCHW}]`, `Run` on a fresh Optimizer does not succeed; it
fails the check `CHECK(!graphs_.empty())` made when the control-flow elimination
pass is configured. -/
theorem C3_counterexample :
    Run exampleEnv { blocks := [], exec_scope := some 3 } examplePlaces exampleFactor []
        (Optimizer.new Unit Nat)
      = .fatal "!graphs_.empty()" ""
          { graphs_ := [],
            valid_places_ := examplePlaces,
            exec_scope_ := none,
            program_ := some { blocks := [], exec_scope := some 3 },
            trace := [Event.SpecifyKernelPickTactic exampleFactor,
                      Event.SetValidPlaces "type_target_cast_pass"] } := by
  rfl

/-- Claim C3, amended: for a program with at least one block, a non-empty
`valid_places`, an Optimizer that holds no graphs, and a registry that knows the
three passes `Run` configures, `Run` returns normally; afterwards `graphs_` has
`program.block_size()` entries, and the entry at index `i` is the graph built
from block `i` against `valid_places`, rewritten by the entries of the pass list
in order. -/
theorem C3_one_graph_per_block (env : Env B G) (program : Program B)
    (valid_places : List Place) (kernel_pick_factor : KernelPickFactor)
    (passes : List String) (self : Optimizer B G)
    (hvp : valid_places ≠ []) (hblocks : 0 < program.block_size)
    (hfresh : self.graphs_ = [])
    (hcast : (env.LookUp "type_target_cast_pass").isSome = true)
    (hunused : (env.LookUp
      "control_flow_op_unused_inputs_and_outputs_eliminate_pass").isSome = true)
    (hshared : (env.LookUp
      "control_flow_op_shared_inputs_and_outputs_place_sync_pass").isSome = true) :
    ∃ final list,
      passes_local env.flags program.block_size valid_places passes = .ok list
      ∧ Run env program valid_places kernel_pick_factor passes self = .ok final
      ∧ final.graphs_.length = program.block_size
      ∧ ∀ i, i < program.block_size →
          final.graphs_[i]?
            = some (list.foldl (applyTo env valid_places i)
                (builtGraph env program valid_places i)) := by
  obtain ⟨list, hlist⟩ : ∃ list,
      passes_local env.flags program.block_size valid_places passes = .ok list :=
    ⟨_, passes_local_shape env.flags program.block_size valid_places passes⟩
  have h1 : valid_places.isEmpty = false := by
    cases valid_places with
    | nil => exact absurd rfl hvp
    | cons a l => rfl
  -- the state in which `RunPasses` is entered
  let s0 : Optimizer B G :=
    { graphs_ := (List.range program.block_size).map (builtGraph env program valid_places),
      valid_places_ := valid_places,
      exec_scope_ := self.exec_scope_,
      program_ := some program,
      trace := ((((self.trace ++ (List.range program.block_size).map Event.Build)
        ++ [Event.SpecifyKernelPickTactic kernel_pick_factor])
        ++ [Event.SetValidPlaces "type_target_cast_pass"])
        ++ [Event.SetAllGraphs "control_flow_op_unused_inputs_and_outputs_eliminate_pass"])
        ++ [Event.SetAllGraphs "control_flow_op_shared_inputs_and_outputs_place_sync_pass"] }
  have hlen0 : s0.graphs_.length = program.block_size := by simp [s0]
  have hne0 : s0.graphs_ ≠ [] := by
    intro h0
    rw [h0] at hlen0
    simp at hlen0
    omega
  obtain ⟨s1, hrun, hv, hp, he, hg⟩ := RunPasses_ok env list s0 hne0
  have hne0' : ((List.range program.block_size).map
      (builtGraph env program valid_places)).isEmpty = false := by
    cases hr : (List.range program.block_size).map (builtGraph env program valid_places) with
    | nil => exact absurd hr hne0
    | cons a l => rfl
  refine ⟨{ s1 with exec_scope_ := program.exec_scope }, list, hlist, ?_, ?_, ?_⟩
  · have hpre : Run env program valid_places kernel_pick_factor passes self
        = (RunPasses env list s0).bind
            (fun s => .ok { s with exec_scope_ := program.exec_scope }) := by
      unfold Run
      simp only [CHECK, h1, hfresh, Bool.not_false, if_true, Result.bind, List.isEmpty_nil,
        buildGraphs_eq, SpecifyKernelPickTactic, InitTargetTypeTransformPass,
        InitControlFlowOpUnusedInputsAndOutputsEliminatePass,
        InitControlFlowOpSharedInputsAndOutputsPlaceSyncPass, hcast, hunused, hshared,
        List.nil_append, hne0', List.length_map, List.length_range, hlist]
    rw [hpre, hrun]
    rfl
  · show s1.graphs_.length = program.block_size
    rw [RunPasses_length env list s0 s1 hrun, hlen0]
  · intro i hi
    show s1.graphs_[i]? = _
    rw [hg i]
    simp [s0, hi]

/-- Witness of C3 (amended): `exampleEnv`, a program of two blocks and
`examplePlaces`, on a fresh Optimizer. -/
theorem C3_one_graph_per_block_witness :
    ∃ final list,
      passes_local exampleEnv.flags
          (Program.block_size ({ blocks := [(), ()], exec_scope := some 3 } : Program Unit))
          examplePlaces [] = .ok list
      ∧ Run exampleEnv { blocks := [(), ()], exec_scope := some 3 } examplePlaces
          exampleFactor [] (Optimizer.new Unit Nat) = .ok final
      ∧ final.graphs_.length
          = Program.block_size ({ blocks := [(), ()], exec_scope := some 3 } : Program Unit)
      ∧ ∀ i, i < Program.block_size ({ blocks := [(), ()], exec_scope := some 3 } : Program Unit) →
          final.graphs_[i]?
            = some (list.foldl (applyTo exampleEnv examplePlaces i)
                (builtGraph exampleEnv { blocks := [(), ()], exec_scope := some 3 }
                  examplePlaces i)) :=
  C3_one_graph_per_block exampleEnv { blocks := [(), ()], exec_scope := some 3 }
    examplePlaces exampleFactor [] (Optimizer.new Unit Nat)
    (by decide) (by decide) rfl rfl rfl rfl

end RunClaims2

/-! ## Lemmas on the loop of `RunPasses` -/

section RunPassesClaims

variable {B G : Type}

theorem Result.bind_ok {σ : Type} (r : Result σ) : r.bind Result.ok = r := by
  cases r <;> rfl

theorem RunPasses_singleton (env : Env B G) (x : String) (self : Optimizer B G) :
    RunPasses env [x] self = RunPasses.step env self x := by
  show (RunPasses.step env self x).bind (RunPasses env []) = _
  have : RunPasses env ([] : List String) = Result.ok := by
    funext s; rfl
  rw [this, Result.bind_ok]

theorem RunPasses_append (env : Env B G) (before after : List String) (self : Optimizer B G) :
    RunPasses env (before ++ after) self
      = (RunPasses env before self).bind (RunPasses env after) := by
  induction before generalizing self with
  | nil => rfl
  | cons x rest ih =>
    show (RunPasses.step env self x).bind (RunPasses env (rest ++ after)) = _
    cases h : RunPasses.step env self x with
    | ok s => simp [RunPasses, h, Result.bind, ih]
    | fatal e m s => simp [RunPasses, h, Result.bind]
    | undefined s => simp [RunPasses, h, Result.bind]

theorem RunPasses.step_valid_places (env : Env B G) (self final : Optimizer B G) (x : String)
    (h : RunPasses.step env self x = .ok final) :
    final.valid_places_ = self.valid_places_ := by
  unfold RunPasses.step at h
  split at h
  · cases h; rfl
  · dsimp only at h
    split at h
    · cases h; rfl
    · split at h
      · split at h
        · cases h
        · cases h; rfl
      · cases h; rfl

theorem RunPasses_valid_places (env : Env B G) (passes : List String)
    (self final : Optimizer B G) (h : RunPasses env passes self = .ok final) :
    final.valid_places_ = self.valid_places_ := by
  induction passes generalizing self with
  | nil => simp [RunPasses] at h; rw [h]
  | cons x rest ih =>
    unfold RunPasses at h
    obtain ⟨mid, h1, h2⟩ := (Result.bind_eq_ok _ _ _).mp h
    rw [ih mid h2, RunPasses.step_valid_places env self mid x h1]

theorem RunPasses.step_ne_fatal (env : Env B G) (self s : Optimizer B G) (x e m : String) :
    RunPasses.step env self x ≠ .fatal e m s := by
  unfold RunPasses.step
  intro h
  split at h
  · cases h
  · dsimp only at h
    split at h
    · cases h
    · split at h
      · split at h <;> cases h
      · cases h

theorem RunPasses_ne_fatal (env : Env B G) (passes : List String) (self s : Optimizer B G)
    (e m : String) : RunPasses env passes self ≠ .fatal e m s := by
  induction passes generalizing self with
  | nil => intro h; cases h
  | cons x rest ih =>
    intro h
    unfold RunPasses at h
    cases h1 : RunPasses.step env self x with
    | ok mid =>
      rw [h1] at h
      exact ih mid h
    | fatal e2 m2 s2 => exact RunPasses.step_ne_fatal env self s2 x e2 m2 h1
    | undefined s2 =>
      rw [h1] at h
      cases h

end RunPassesClaims

/-! ## The scope rule and the skips of `RunPasses` -/

section RunPassesClaims2

variable {B G : Type}

/-- Claim C11: one entry `x` of the pass list, for a registered pass that matches
targets and kernels, on `N >= 1` graphs. The set `kSubblockUnsupportedPasses`
holds `memory_optimize_pass` alone. A pass named in it is applied once, to the
root graph at index 0, and every other graph stays as it is; any other pass is
applied once to each of the `N` graphs, the calls being made for the indices
`0, 1, ..., N - 1` in this order. -/
theorem C11_scope_of_a_matched_pass (env : Env B G) (self : Optimizer B G) (x : String)
    (pass : Pass G) (hN : self.graphs_ ≠ [])
    (hl : env.LookUp x = some pass)
    (ht : pass.matchesTarget
      (self.valid_places_.map (fun place => place.target)).toFinset = true)
    (hk : pass.matchesKernels = true) :
    (x ∈ kSubblockUnsupportedPasses ↔ x = "memory_optimize_pass")
    ∧ (x ∈ kSubblockUnsupportedPasses →
        ∃ root subblocks, self.graphs_ = root :: subblocks
          ∧ RunPasses env [x] self
            = .ok { self with
                    graphs_ := pass.Apply root :: subblocks,
                    trace := self.trace ++ [Event.Apply x 0] })
    ∧ (x ∉ kSubblockUnsupportedPasses →
        RunPasses env [x] self
          = .ok { self with
                  graphs_ := self.graphs_.map pass.Apply,
                  trace := self.trace
                    ++ (List.range self.graphs_.length).map (Event.Apply x) }) := by
  refine ⟨by simp [kSubblockUnsupportedPasses], ?_, ?_⟩
  · intro hs
    cases hg : self.graphs_ with
    | nil => exact absurd hg hN
    | cons root subblocks =>
      refine ⟨root, subblocks, rfl, ?_⟩
      rw [RunPasses_singleton]
      unfold RunPasses.step
      simp only [hl, ht, hk, hs, hg, Bool.and_self, Bool.not_true, if_true, if_false,
        Bool.false_eq_true, kRootBlockIdx]
  · intro hs
    rw [RunPasses_singleton]
    unfold RunPasses.step
    simp only [hl, ht, hk, hs, Bool.and_self, Bool.not_true, if_true, if_false,
      Bool.false_eq_true]

/-- Witness of C11 on two graphs, with a registry that knows every name: the
pass `memory_optimize_pass` rewrites the root graph alone, the pass
`static_kernel_pick_pass` rewrites both graphs, index 0 first. -/
theorem C11_scope_of_a_matched_pass_witness :
    RunPasses fullEnv ["memory_optimize_pass"] twoGraphs
      = .ok { twoGraphs with
              graphs_ := [1, 10],
              trace := [Event.Apply "memory_optimize_pass" 0] }
    ∧ RunPasses fullEnv ["static_kernel_pick_pass"] twoGraphs
      = .ok { twoGraphs with
              graphs_ := [1, 11],
              trace := [Event.Apply "static_kernel_pick_pass" 0,
                        Event.Apply "static_kernel_pick_pass" 1] } := by
  constructor
  · obtain ⟨root, subblocks, hg, h⟩ :=
      (C11_scope_of_a_matched_pass fullEnv twoGraphs "memory_optimize_pass"
        { Apply := fun g => g + 1, matchesTarget := fun _ => true, matchesKernels := true }
        (by decide) rfl rfl rfl).2.1 (by decide)
    cases hg
    exact h
  · exact (C11_scope_of_a_matched_pass fullEnv twoGraphs "static_kernel_pick_pass"
        { Apply := fun g => g + 1, matchesTarget := fun _ => true, matchesKernels := true }
        (by decide) rfl rfl rfl).2.2 (by decide)

/-- Claim C12: an entry `x` of the pass list whose pass is registered and fails
`PassMatchesTarget` for the targets of `valid_places_`. The entry returns
normally and leaves the whole state as it is: no graph is rewritten and no call
is made. `RunPasses` on a list that holds the entry anywhere gives the outcome
of `RunPasses` on the list without it, so the entries after it are processed. -/
theorem C12_target_mismatch_is_skipped (env : Env B G) (self : Optimizer B G) (x : String)
    (pass : Pass G) (before after : List String)
    (hl : env.LookUp x = some pass)
    (ht : pass.matchesTarget
      (self.valid_places_.map (fun place => place.target)).toFinset = false) :
    RunPasses env [x] self = .ok self
    ∧ RunPasses env (x :: after) self = RunPasses env after self
    ∧ RunPasses env (before ++ x :: after) self = RunPasses env (before ++ after) self := by
  have hstep : ∀ s : Optimizer B G, s.valid_places_ = self.valid_places_ →
      RunPasses.step env s x = .ok s := by
    intro s hs
    unfold RunPasses.step
    simp only [hl, hs, ht, Bool.false_and, Bool.not_false, if_true]
  have hcons : ∀ s : Optimizer B G, s.valid_places_ = self.valid_places_ →
      RunPasses env (x :: after) s = RunPasses env after s := by
    intro s hs
    show (RunPasses.step env s x).bind (RunPasses env after) = _
    rw [hstep s hs]
    rfl
  refine ⟨?_, hcons self rfl, ?_⟩
  · rw [RunPasses_singleton, hstep self rfl]
  · rw [RunPasses_append, RunPasses_append]
    cases hb : RunPasses env before self with
    | ok s =>
      have hv := RunPasses_valid_places env before self s hb
      show RunPasses env (x :: after) s = RunPasses env after s
      exact hcons s hv
    | fatal e m s => rfl
    | undefined s => rfl

/-- Witness of C12 on two graphs: the registered pass `type_target_cast_pass` of
`mismatchEnv` matches no targets; the run returns normally in the state it
started from. -/
theorem C12_target_mismatch_is_skipped_witness :
    RunPasses mismatchEnv ["type_target_cast_pass"] twoGraphs = .ok twoGraphs
    ∧ RunPasses mismatchEnv ("type_target_cast_pass" :: ["static_kernel_pick_pass"]) twoGraphs
      = RunPasses mismatchEnv ["static_kernel_pick_pass"] twoGraphs
    ∧ RunPasses mismatchEnv
        (["remove_scale1_pass"] ++ "type_target_cast_pass" :: ["static_kernel_pick_pass"])
        twoGraphs
      = RunPasses mismatchEnv (["remove_scale1_pass"] ++ ["static_kernel_pick_pass"])
        twoGraphs :=
  C12_target_mismatch_is_skipped mismatchEnv twoGraphs "type_target_cast_pass"
    { Apply := fun g => g + 1, matchesTarget := fun _ => false, matchesKernels := true }
    ["remove_scale1_pass"] ["static_kernel_pick_pass"] rfl rfl

/-- Claim C13: names that the registry does not know. Such a name returns
normally and leaves the state as it is; `RunPasses` never ends in a failed
check; and its outcome on a pass list, graphs and trace of calls included, is
its outcome on the list from which the unregistered names are removed. -/
theorem C13_unregistered_names_are_skipped (env : Env B G) (passes : List String)
    (self : Optimizer B G) :
    (∀ x, env.LookUp x = none → RunPasses env [x] self = .ok self)
    ∧ (∀ e m s, RunPasses env passes self ≠ .fatal e m s)
    ∧ RunPasses env passes self
      = RunPasses env (passes.filter (fun x => (env.LookUp x).isSome)) self := by
  refine ⟨?_, fun e m s => RunPasses_ne_fatal env passes self s e m, ?_⟩
  · intro x hx
    rw [RunPasses_singleton]
    unfold RunPasses.step
    simp only [hx]
  · induction passes generalizing self with
    | nil => rfl
    | cons x rest ih =>
      cases hx : env.LookUp x with
      | none =>
        have hstep : RunPasses.step env self x = .ok self := by
          unfold RunPasses.step
          simp only [hx]
        have hf : (x :: rest).filter (fun x => (env.LookUp x).isSome)
            = rest.filter (fun x => (env.LookUp x).isSome) := by
          simp [List.filter_cons, hx]
        rw [hf, ← ih self]
        show (RunPasses.step env self x).bind (RunPasses env rest) = _
        rw [hstep]
        rfl
      | some pass =>
        have hf : (x :: rest).filter (fun x => (env.LookUp x).isSome)
            = x :: rest.filter (fun x => (env.LookUp x).isSome) := by
          simp [List.filter_cons, hx]
        rw [hf]
        show (RunPasses.step env self x).bind (RunPasses env rest)
          = (RunPasses.step env self x).bind
              (RunPasses env (rest.filter (fun x => (env.LookUp x).isSome)))
        have : RunPasses env rest
            = RunPasses env (rest.filter (fun x => (env.LookUp x).isSome)) := by
          funext s
          exact ih s
        rw [this]

/-- Witness of C13 with `exampleEnv`, which does not know
`static_kernel_pick_pass`. -/
theorem C13_unregistered_names_are_skipped_witness :
    exampleEnv.LookUp "static_kernel_pick_pass" = none
    ∧ RunPasses exampleEnv ["static_kernel_pick_pass"] twoGraphs = .ok twoGraphs
    ∧ RunPasses exampleEnv
        ["static_kernel_pick_pass", "type_target_cast_pass", "remove_scale1_pass"] twoGraphs
      = RunPasses exampleEnv ["type_target_cast_pass"] twoGraphs :=
  ⟨rfl,
   (C13_unregistered_names_are_skipped exampleEnv [] twoGraphs).1
     "static_kernel_pick_pass" rfl,
   (C13_unregistered_names_are_skipped exampleEnv
     ["static_kernel_pick_pass", "type_target_cast_pass", "remove_scale1_pass"] twoGraphs).2.2⟩

end RunPassesClaims2

/-! ## Lemmas on the states `Run` leaves behind -/

section GenLemmas

variable {B G : Type}

theorem RunPasses.step_state_exec_scope (env : Env B G) (self : Optimizer B G) (x : String) :
    (RunPasses.step env self x).state.exec_scope_ = self.exec_scope_ := by
  unfold RunPasses.step
  split
  · rfl
  · dsimp only
    split
    · rfl
    · split
      · split <;> rfl
      · rfl

theorem RunPasses_state_exec_scope (env : Env B G) (passes : List String)
    (self : Optimizer B G) :
    (RunPasses env passes self).state.exec_scope_ = self.exec_scope_ := by
  induction passes generalizing self with
  | nil => rfl
  | cons x rest ih =>
    have hs := RunPasses.step_state_exec_scope env self x
    unfold RunPasses
    cases h : RunPasses.step env self x with
    | ok mid =>
      rw [h] at hs
      show (RunPasses env rest mid).state.exec_scope_ = _
      rw [ih mid]
      exact hs
    | fatal e m s => rw [h] at hs; exact hs
    | undefined s => rw [h] at hs; exact hs

/-- What a run that returned normally leaves behind: it started without graphs
and with non-empty valid places, and it ends with one graph per block, the
valid places given, and the execution scope of the program. -/
theorem Run_ok_inv (env : Env B G) (program : Program B)
    (valid_places : List Place) (factor : KernelPickFactor) (passes : List String)
    (self final : Optimizer B G)
    (h : Run env program valid_places factor passes self = .ok final) :
    self.graphs_ = [] ∧ valid_places ≠ []
    ∧ final.exec_scope_ = program.exec_scope
    ∧ final.graphs_.length = program.block_size
    ∧ final.valid_places_ = valid_places := by
  unfold Run at h
  simp only [Result.bind_eq_ok, CHECK_eq_ok, InitTargetTypeTransformPass_eq_ok,
    InitControlFlowOpUnusedInputsAndOutputsEliminatePass_eq_ok,
    InitControlFlowOpSharedInputsAndOutputsPlaceSyncPass_eq_ok] at h
  obtain ⟨m1, ⟨hvp, rfl⟩, m2, ⟨hfresh, rfl⟩, m3, ⟨_, _, rfl⟩, m4, ⟨_, _, rfl⟩,
    m5, ⟨_, _, rfl⟩, h⟩ := h
  split at h
  · cases h
  · obtain ⟨m6, hrun, hfin⟩ := (Result.bind_eq_ok _ _ _).mp h
    cases hfin
    have hlen := RunPasses_length env _ _ m6 hrun
    have hval := RunPasses_valid_places env _ _ m6 hrun
    have hnil : self.graphs_ = [] := by
      cases hg : self.graphs_ with
      | nil => rfl
      | cons a l => simp [hg] at hfresh
    refine ⟨hnil, ?_, rfl, ?_, ?_⟩
    · intro h0
      rw [h0] at hvp
      simp at hvp
    · show m6.graphs_.length = program.block_size
      rw [hlen]
      simp [SpecifyKernelPickTactic, buildGraphs_eq, hnil]
    · show m6.valid_places_ = valid_places
      rw [hval]
      simp [SpecifyKernelPickTactic, buildGraphs_eq]

end GenLemmas

section GenLemmas2

variable {B G : Type}

theorem CHECK_state {σ : Type} (x : Bool) (expr msg : String) (s : σ) :
    (CHECK x expr msg s).state = s := by
  cases x <;> rfl

theorem bind_ok_or_exec_scope (c : Option Scope) (r : Result (Optimizer B G))
    (k : Optimizer B G → Result (Optimizer B G))
    (hr : r.state.exec_scope_ = c)
    (hk : ∀ s, s.exec_scope_ = c → (∃ after, k s = .ok after) ∨ (k s).state.exec_scope_ = c) :
    (∃ after, r.bind k = .ok after) ∨ (r.bind k).state.exec_scope_ = c := by
  cases r with
  | ok s => exact hk s hr
  | fatal e m s => exact Or.inr hr
  | undefined s => exact Or.inr hr

theorem Init_state_exec_scope (env : Env B G) (self : Optimizer B G) :
    (InitTargetTypeTransformPass env self).state.exec_scope_ = self.exec_scope_
    ∧ (InitControlFlowOpUnusedInputsAndOutputsEliminatePass env self).state.exec_scope_
        = self.exec_scope_
    ∧ (InitControlFlowOpSharedInputsAndOutputsPlaceSyncPass env self).state.exec_scope_
        = self.exec_scope_ := by
  refine ⟨?_, ?_, ?_⟩
  · cases h1 : (env.LookUp "type_target_cast_pass").isSome <;>
      cases h2 : self.valid_places_.isEmpty <;>
      simp [InitTargetTypeTransformPass, CHECK, Result.bind, Result.state, h1, h2]
  · cases h1 : (env.LookUp
        "control_flow_op_unused_inputs_and_outputs_eliminate_pass").isSome <;>
      cases h2 : self.graphs_.isEmpty <;>
      simp [InitControlFlowOpUnusedInputsAndOutputsEliminatePass, CHECK, Result.bind,
        Result.state, h1, h2]
  · cases h1 : (env.LookUp
        "control_flow_op_shared_inputs_and_outputs_place_sync_pass").isSome <;>
      cases h2 : self.graphs_.isEmpty <;>
      simp [InitControlFlowOpSharedInputsAndOutputsPlaceSyncPass, CHECK, Result.bind,
        Result.state, h1, h2]

/-- A run that did not return normally ends in a state whose `exec_scope_` is the
one it started with: `exec_scope_` is assigned by the last statement of `Run`
alone. -/
theorem Run_ok_or_exec_scope (env : Env B G) (program : Program B)
    (valid_places : List Place) (factor : KernelPickFactor) (passes : List String)
    (self : Optimizer B G) :
    (∃ after, Run env program valid_places factor passes self = .ok after)
    ∨ (Run env program valid_places factor passes self).state.exec_scope_
        = self.exec_scope_ := by
  unfold Run
  dsimp only
  refine bind_ok_or_exec_scope _ _ _ (by rw [CHECK_state]) (fun s1 h1 => ?_)
  refine bind_ok_or_exec_scope _ _ _ (by rw [CHECK_state]; exact h1) (fun s2 h2 => ?_)
  have h3 : (SpecifyKernelPickTactic factor
      (buildGraphs env program valid_places program.block_size s2)).exec_scope_
        = self.exec_scope_ := by
    rw [buildGraphs_eq]
    exact h2
  refine bind_ok_or_exec_scope _ _ _
    (by rw [(Init_state_exec_scope env _).1]; exact h3) (fun s4 h4 => ?_)
  refine bind_ok_or_exec_scope _ _ _
    (by rw [(Init_state_exec_scope env _).2.1]; exact h4) (fun s5 h5 => ?_)
  refine bind_ok_or_exec_scope _ _ _
    (by rw [(Init_state_exec_scope env _).2.2]; exact h5) (fun s6 h6 => ?_)
  split
  · exact Or.inr h6
  · rename_i list _
    have hr := RunPasses_state_exec_scope env list s6
    cases hrun : RunPasses env list s6 with
    | ok s7 => exact Or.inl ⟨_, rfl⟩
    | fatal e m s7 =>
      rw [hrun] at hr
      exact Or.inr (hr.trans h6)
    | undefined s7 =>
      rw [hrun] at hr
      exact Or.inr (hr.trans h6)

end GenLemmas2

/-! ## `GenRuntimeProgram` and the graph accessors -/

section GenClaims

variable {B G : Type}

/-- Claim C14: `GenRuntimeProgram` on an Optimizer without an execution scope. A
default-constructed Optimizer has none, and a `Run` that did not return
normally leaves none behind. In such a state `GenRuntimeProgram` returns no
`RuntimeProgram`, whatever the registry holds; with the generate-program pass
registered it ends in the failed check `CHECK(exec_scope_)`, after the pass was
applied to the graphs present, if any. -/
theorem C14_gen_before_run_is_fatal {R : Type} (self : Optimizer B G)
    (h : self.exec_scope_ = none) :
    (Optimizer.new B G).exec_scope_ = none
    ∧ (∀ (env : Env B G) (program : Program B) (valid_places : List Place)
        (factor : KernelPickFactor) (passes : List String),
        (∀ after, Run env program valid_places factor passes self ≠ .ok after) →
        (Run env program valid_places factor passes self).state.exec_scope_ = none)
    ∧ (∀ (lookup : Option (GenerateProgramPass G R)) program s,
        GenRuntimeProgram lookup self ≠ .ok program s)
    ∧ (∀ pass : GenerateProgramPass G R,
        GenRuntimeProgram (some pass) self
          = .fatal "exec_scope_" ""
              { self with
                graphs_ := self.graphs_.map pass.Apply,
                trace := self.trace ++ (List.range self.graphs_.length).map
                  (Event.Apply "generate_program_pass") }) := by
  have hgen : ∀ pass : GenerateProgramPass G R,
      GenRuntimeProgram (some pass) self
        = .fatal "exec_scope_" ""
            { self with
              graphs_ := self.graphs_.map pass.Apply,
              trace := self.trace ++ (List.range self.graphs_.length).map
                (Event.Apply "generate_program_pass") } := by
    intro pass
    simp only [GenRuntimeProgram, h]
  refine ⟨rfl, ?_, ?_, hgen⟩
  · intro env program valid_places factor passes hnot
    rcases Run_ok_or_exec_scope env program valid_places factor passes self with ⟨after, ha⟩ | hs
    · exact absurd ha (hnot after)
    · rw [hs, h]
  · intro lookup program s hok
    cases lookup with
    | none => simp [GenRuntimeProgram] at hok
    | some pass => rw [hgen pass] at hok; cases hok

/-- Witness of C14 at the default-constructed Optimizer, with the generate-program
pass registered. -/
theorem C14_gen_before_run_is_fatal_witness :
    (Optimizer.new Unit Nat).exec_scope_ = none
    ∧ GenRuntimeProgram (some exampleGenerateProgramPass) (Optimizer.new Unit Nat)
      = .fatal "exec_scope_" "" (Optimizer.new Unit Nat) :=
  ⟨rfl, (C14_gen_before_run_is_fatal (Optimizer.new Unit Nat) rfl).2.2.2
    exampleGenerateProgramPass⟩

/-- Claim C15: `GenRuntimeProgram` after a `Run` that returned normally in state
`after`, for a program that has an execution scope and with the
generate-program pass registered. The pass is applied to every graph, the calls
being made for the block indices `0, 1, ...` in this order, one per block of the
program; the program generated from these graphs is returned with the execution
scope of the input program attached, which is also what `exec_scope()`
returns. -/
theorem C15_gen_after_run {R : Type} (env : Env B G) (pass : GenerateProgramPass G R)
    (program : Program B) (valid_places : List Place) (factor : KernelPickFactor)
    (passes : List String) (self after : Optimizer B G) (scope : Scope)
    (hrun : Run env program valid_places factor passes self = .ok after)
    (hscope : program.exec_scope = some scope) :
    GenRuntimeProgram (some pass) after
      = .ok { insts := pass.GenProgram (after.graphs_.map pass.Apply),
              exec_scope := program.exec_scope }
            { after with
              graphs_ := after.graphs_.map pass.Apply,
              trace := after.trace ++ (List.range program.block_size).map
                (Event.Apply "generate_program_pass") }
    ∧ after.graphs_.length = program.block_size
    ∧ exec_scope after = program.exec_scope := by
  obtain ⟨_, _, hes, hlen, _⟩ := Run_ok_inv env program valid_places factor passes self after hrun
  refine ⟨?_, hlen, hes⟩
  have hs : after.exec_scope_ = some scope := hes.trans hscope
  simp only [GenRuntimeProgram, hs, hlen, hscope]

set_option maxRecDepth 100000 in
/-- Witness of C15: a program of one block with execution scope 3, the valid
places `[{Host, FP32, NCHW}]`, the factor that considers all three dimensions
and no extra passes; the run ends in `exampleAfter`. -/
theorem C15_gen_after_run_witness :
    Run exampleEnv { blocks := [()], exec_scope := some 3 } examplePlaces exampleFactor []
        (Optimizer.new Unit Nat) = .ok exampleAfter
    ∧ GenRuntimeProgram (some exampleGenerateProgramPass) exampleAfter
      = .ok { insts := [107], exec_scope := some 3 }
            { exampleAfter with
              graphs_ := [107],
              trace := exampleAfter.trace ++ [Event.Apply "generate_program_pass" 0] }
    ∧ exec_scope exampleAfter = some 3 :=
  ⟨rfl,
   (C15_gen_after_run exampleEnv exampleGenerateProgramPass
      { blocks := [()], exec_scope := some 3 } examplePlaces exampleFactor []
      (Optimizer.new Unit Nat) exampleAfter 3 rfl rfl).1,
   (C15_gen_after_run exampleEnv exampleGenerateProgramPass
      { blocks := [()], exec_scope := some 3 } examplePlaces exampleFactor []
      (Optimizer.new Unit Nat) exampleAfter 3 rfl rfl).2.2⟩

/-- The three cases of `ssa_graph` and `mutable_ssa_graph`: without graphs the
check `CHECK(!graphs_.empty())` fails; with graphs, an index inside the vector
returns the graph at that index; with graphs, an index outside the vector is an
unchecked access. -/
theorem ssa_graph_cases (self : Optimizer B G) (block_idx : Int) :
    mutable_ssa_graph self block_idx = ssa_graph self block_idx
    ∧ (self.graphs_ = [] → ssa_graph self block_idx = .fatal "!graphs_.empty()" "" self)
    ∧ (∀ i graph, block_idx = Int.ofNat i → self.graphs_[i]? = some graph →
        ssa_graph self block_idx = .ok graph self)
    ∧ (self.graphs_ ≠ [] → (block_idx < 0 ∨ (self.graphs_.length : Int) ≤ block_idx) →
        ssa_graph self block_idx = .undefined self) := by
  refine ⟨rfl, ?_, ?_, ?_⟩
  · intro h
    simp [ssa_graph, h]
  · intro i graph hi hg
    have hne : self.graphs_.isEmpty = false := by
      cases hgs : self.graphs_ with
      | nil => rw [hgs] at hg; simp at hg
      | cons a l => rfl
    subst hi
    simp [ssa_graph, hne, hg]
  · intro hne hout
    have hne2 : self.graphs_.isEmpty = false := by
      cases hgs : self.graphs_ with
      | nil => exact absurd hgs hne
      | cons a l => rfl
    rcases hout with hneg | hbig
    · simp [ssa_graph, hne2, hneg]
    · have hnn : ¬ block_idx < 0 := by omega
      have hnone : self.graphs_[block_idx.toNat]? = none := by
        apply List.getElem?_eq_none
        omega
      simp [ssa_graph, hne2, hnn, hnone]

/-- Claim C16, evaluated where it fails: in `exampleAfter`, which holds one
graph, the block indices 1 and -1 lie outside the vector; `ssa_graph` and
`mutable_ssa_graph` pass `CHECK(!graphs_.empty())` and then index the vector
without a range check, which is undefined and not a failed check. The index 0
returns the one graph. -/
theorem C16_out_of_range_index_is_unchecked :
    ssa_graph exampleAfter 1 = .undefined exampleAfter
    ∧ mutable_ssa_graph exampleAfter 1 = .undefined exampleAfter
    ∧ ssa_graph exampleAfter (-1) = .undefined exampleAfter
    ∧ mutable_ssa_graph exampleAfter (-1) = .undefined exampleAfter
    ∧ ssa_graph exampleAfter 0 = .ok 7 exampleAfter
    ∧ ssa_graph (Optimizer.new Unit Nat) 0
        = .fatal "!graphs_.empty()" "" (Optimizer.new Unit Nat) :=
  ⟨rfl, rfl, rfl, rfl, rfl, rfl⟩

end GenClaims

/-! ## Structural pruning as an operation on lists -/

theorem eraseRemove_idem (v : List String) (name : String) :
    eraseRemove (eraseRemove v name) name = eraseRemove v name := by
  simp [eraseRemove, List.filter_filter]

theorem eraseRemove_comm (v : List String) (a b : String) :
    eraseRemove (eraseRemove v a) b = eraseRemove (eraseRemove v b) a := by
  simp only [eraseRemove, List.filter_filter]
  congr 1
  funext x
  exact Bool.and_comm _ _

/-- Claim C17: structural pruning is idempotent. For every number of graphs and
every pass list, pruning the pruned list changes nothing; with more than one
graph, where pruning erases `lite_conv_bn_fuse_pass` and
`__xpu__graph_dedup_pass`, as with at most one graph, where it erases
nothing. -/
theorem C17_prune_idempotent (graphs_size : Nat) (v : List String) :
    prune graphs_size (prune graphs_size v) = prune graphs_size v
    ∧ eraseRemove (eraseRemove
        (eraseRemove (eraseRemove v "lite_conv_bn_fuse_pass") "__xpu__graph_dedup_pass")
        "lite_conv_bn_fuse_pass") "__xpu__graph_dedup_pass"
      = eraseRemove (eraseRemove v "lite_conv_bn_fuse_pass") "__xpu__graph_dedup_pass" := by
  have h : eraseRemove (eraseRemove
        (eraseRemove (eraseRemove v "lite_conv_bn_fuse_pass") "__xpu__graph_dedup_pass")
        "lite_conv_bn_fuse_pass") "__xpu__graph_dedup_pass"
      = eraseRemove (eraseRemove v "lite_conv_bn_fuse_pass") "__xpu__graph_dedup_pass" := by
    rw [eraseRemove_comm (eraseRemove v "lite_conv_bn_fuse_pass") "__xpu__graph_dedup_pass"
      "lite_conv_bn_fuse_pass", eraseRemove_idem, eraseRemove_idem]
  refine ⟨?_, h⟩
  unfold prune
  split
  · exact h
  · rfl

/-- Counterexample to C18 as stated: two lists that hold the same names in a
different order are pruned to different lists, since each result keeps the
order of its own list. -/
theorem C18_counterexample :
    List.Perm ["static_kernel_pick_pass", "lite_conv_bn_fuse_pass", "type_target_cast_pass"]
        ["type_target_cast_pass", "lite_conv_bn_fuse_pass", "static_kernel_pick_pass"]
    ∧ prune 2 ["static_kernel_pick_pass", "lite_conv_bn_fuse_pass", "type_target_cast_pass"]
        = ["static_kernel_pick_pass", "type_target_cast_pass"]
    ∧ prune 2 ["type_target_cast_pass", "lite_conv_bn_fuse_pass", "static_kernel_pick_pass"]
        = ["type_target_cast_pass", "static_kernel_pick_pass"]
    ∧ prune 2 ["static_kernel_pick_pass", "lite_conv_bn_fuse_pass", "type_target_cast_pass"]
        ≠ prune 2 ["type_target_cast_pass", "lite_conv_bn_fuse_pass", "static_kernel_pick_pass"] := by
  refine ⟨?_, by decide, by decide, by decide⟩
  decide

theorem prune_eq_filter (graphs_size : Nat) (u : List String) (hn : 1 < graphs_size) :
    prune graphs_size u
      = u.filter (fun x =>
          decide (x ≠ "lite_conv_bn_fuse_pass" ∧ x ≠ "__xpu__graph_dedup_pass")) := by
  simp only [prune, hn, if_true, eraseRemove, List.filter_filter]
  congr 1
  funext x
  by_cases h1 : x = "lite_conv_bn_fuse_pass" <;> by_cases h2 : x = "__xpu__graph_dedup_pass"
    <;> simp [h1, h2]

theorem prune_sublist (graphs_size : Nat) (u : List String) :
    List.Sublist (prune graphs_size u) u := by
  unfold prune
  split
  · exact (List.filter_sublist _).trans (List.filter_sublist _)
  · exact List.Sublist.refl u

/-- Claim C18, amended: structural pruning is independent of the order of the list
up to the order of the result. Two lists that hold the same names with the same
multiplicities are pruned to lists that hold the same names with the same
multiplicities, neither of which holds a pruned name when there is more than
one graph. Each result keeps the relative order of its own input: it is a
sublist of its input, namely the input filtered by "neither of the two names"
when there is more than one graph and the input itself otherwise. Erasing the
two names in either order gives the same list. -/
theorem C18_prune_respects_permutations (graphs_size : Nat) (v w : List String)
    (h : List.Perm v w) :
    List.Perm (prune graphs_size v) (prune graphs_size w)
    ∧ (∀ x, (prune graphs_size v).count x = (prune graphs_size w).count x)
    ∧ (1 < graphs_size →
        "lite_conv_bn_fuse_pass" ∉ prune graphs_size v
        ∧ "__xpu__graph_dedup_pass" ∉ prune graphs_size v
        ∧ "lite_conv_bn_fuse_pass" ∉ prune graphs_size w
        ∧ "__xpu__graph_dedup_pass" ∉ prune graphs_size w)
    ∧ eraseRemove (eraseRemove v "lite_conv_bn_fuse_pass") "__xpu__graph_dedup_pass"
      = eraseRemove (eraseRemove v "__xpu__graph_dedup_pass") "lite_conv_bn_fuse_pass"
    ∧ List.Sublist (prune graphs_size v) v
    ∧ List.Sublist (prune graphs_size w) w
    ∧ (1 < graphs_size →
        prune graphs_size v
          = v.filter (fun x =>
              decide (x ≠ "lite_conv_bn_fuse_pass" ∧ x ≠ "__xpu__graph_dedup_pass"))
        ∧ prune graphs_size w
          = w.filter (fun x =>
              decide (x ≠ "lite_conv_bn_fuse_pass" ∧ x ≠ "__xpu__graph_dedup_pass")))
    ∧ (¬ 1 < graphs_size → prune graphs_size v = v ∧ prune graphs_size w = w) := by
  have hp : List.Perm (prune graphs_size v) (prune graphs_size w) := by
    unfold prune
    split
    · exact (h.filter _).filter _
    · exact h
  have hmem : ∀ u : List String, 1 < graphs_size →
      "lite_conv_bn_fuse_pass" ∉ prune graphs_size u
      ∧ "__xpu__graph_dedup_pass" ∉ prune graphs_size u := by
    intro u hn
    simp [prune, hn, eraseRemove, List.mem_filter]
  have hid : ∀ u : List String, ¬ 1 < graphs_size → prune graphs_size u = u := by
    intro u hn
    have hn2 : ¬ graphs_size > 1 := hn
    simp only [prune, hn2, if_false]
  refine ⟨hp, fun x => hp.count_eq x, ?_, eraseRemove_comm v _ _,
    prune_sublist graphs_size v, prune_sublist graphs_size w, ?_, ?_⟩
  · intro hn
    exact ⟨(hmem v hn).1, (hmem v hn).2, (hmem w hn).1, (hmem w hn).2⟩
  · intro hn
    exact ⟨prune_eq_filter graphs_size v hn, prune_eq_filter graphs_size w hn⟩
  · intro hn
    exact ⟨hid v hn, hid w hn⟩

/-- Witness of C18 (amended) at the two lists of the counterexample: the results
are permutations of one another, and each is the sublist of its own input that
the filter keeps. -/
theorem C18_prune_respects_permutations_witness :
    List.Perm ["static_kernel_pick_pass", "lite_conv_bn_fuse_pass", "type_target_cast_pass"]
        ["type_target_cast_pass", "lite_conv_bn_fuse_pass", "static_kernel_pick_pass"]
    ∧ List.Perm
        (prune 2 ["static_kernel_pick_pass", "lite_conv_bn_fuse_pass", "type_target_cast_pass"])
        (prune 2 ["type_target_cast_pass", "lite_conv_bn_fuse_pass", "static_kernel_pick_pass"])
    ∧ List.Sublist
        (prune 2 ["static_kernel_pick_pass", "lite_conv_bn_fuse_pass", "type_target_cast_pass"])
        ["static_kernel_pick_pass", "lite_conv_bn_fuse_pass", "type_target_cast_pass"]
    ∧ List.Sublist
        (prune 2 ["type_target_cast_pass", "lite_conv_bn_fuse_pass", "static_kernel_pick_pass"])
        ["type_target_cast_pass", "lite_conv_bn_fuse_pass", "static_kernel_pick_pass"]
    ∧ 1 < 2
    ∧ prune 2 ["static_kernel_pick_pass", "lite_conv_bn_fuse_pass", "type_target_cast_pass"]
      = ["static_kernel_pick_pass", "lite_conv_bn_fuse_pass", "type_target_cast_pass"].filter
          (fun x => decide (x ≠ "lite_conv_bn_fuse_pass" ∧ x ≠ "__xpu__graph_dedup_pass")) :=
  ⟨by decide,
   (C18_prune_respects_permutations 2
      ["static_kernel_pick_pass", "lite_conv_bn_fuse_pass", "type_target_cast_pass"]
      ["type_target_cast_pass", "lite_conv_bn_fuse_pass", "static_kernel_pick_pass"]
      (by decide)).1,
   (C18_prune_respects_permutations 2
      ["static_kernel_pick_pass", "lite_conv_bn_fuse_pass", "type_target_cast_pass"]
      ["type_target_cast_pass", "lite_conv_bn_fuse_pass", "static_kernel_pick_pass"]
      (by decide)).2.2.2.2.1,
   (C18_prune_respects_permutations 2
      ["static_kernel_pick_pass", "lite_conv_bn_fuse_pass", "type_target_cast_pass"]
      ["type_target_cast_pass", "lite_conv_bn_fuse_pass", "static_kernel_pick_pass"]
      (by decide)).2.2.2.2.2.1,
   by decide,
   ((C18_prune_respects_permutations 2
      ["static_kernel_pick_pass", "lite_conv_bn_fuse_pass", "type_target_cast_pass"]
      ["type_target_cast_pass", "lite_conv_bn_fuse_pass", "static_kernel_pick_pass"]
      (by decide)).2.2.2.2.2.2.1 (by decide)).1⟩

/-- Claim C19: structural pruning is a filter by name. With more than one graph
the pruned list is the list filtered by "neither `lite_conv_bn_fuse_pass` nor
`__xpu__graph_dedup_pass`": the two names are gone, every other name keeps its
multiplicity, and the remaining entries keep their relative order. A list that
holds neither name is returned as it is, for every number of graphs; pruning is
a total function and has no failing case. -/
theorem C19_prune_is_filter_by_name (graphs_size : Nat) (v : List String) :
    (1 < graphs_size →
      prune graphs_size v
        = v.filter (fun x =>
            decide (x ≠ "lite_conv_bn_fuse_pass" ∧ x ≠ "__xpu__graph_dedup_pass"))
      ∧ "lite_conv_bn_fuse_pass" ∉ prune graphs_size v
      ∧ "__xpu__graph_dedup_pass" ∉ prune graphs_size v
      ∧ (∀ x, x ≠ "lite_conv_bn_fuse_pass" → x ≠ "__xpu__graph_dedup_pass" →
          (prune graphs_size v).count x = v.count x))
    ∧ List.Sublist (prune graphs_size v) v
    ∧ ("lite_conv_bn_fuse_pass" ∉ v → "__xpu__graph_dedup_pass" ∉ v →
        prune graphs_size v = v) := by
  have hfilter : eraseRemove (eraseRemove v "lite_conv_bn_fuse_pass") "__xpu__graph_dedup_pass"
      = v.filter (fun x =>
          decide (x ≠ "lite_conv_bn_fuse_pass" ∧ x ≠ "__xpu__graph_dedup_pass")) := by
    simp only [eraseRemove, List.filter_filter]
    congr 1
    funext x
    by_cases h1 : x = "lite_conv_bn_fuse_pass" <;> by_cases h2 : x = "__xpu__graph_dedup_pass"
      <;> simp [h1, h2]
  refine ⟨?_, ?_, ?_⟩
  · intro hn
    have hp : prune graphs_size v
        = v.filter (fun x =>
            decide (x ≠ "lite_conv_bn_fuse_pass" ∧ x ≠ "__xpu__graph_dedup_pass")) := by
      simp only [prune, hn, if_true, hfilter]
    refine ⟨hp, ?_, ?_, ?_⟩
    · rw [hp]; simp [List.mem_filter]
    · rw [hp]; simp [List.mem_filter]
    · intro x h1 h2
      rw [hp, List.count_filter]
      simp [h1, h2]
  · unfold prune
    split
    · rw [hfilter]; exact List.filter_sublist v
    · exact List.Sublist.refl v
  · intro h1 h2
    unfold prune
    split
    · rw [hfilter]
      apply List.filter_eq_self.mpr
      intro a ha
      have ha1 : a ≠ "lite_conv_bn_fuse_pass" := fun e => h1 (e ▸ ha)
      have ha2 : a ≠ "__xpu__graph_dedup_pass" := fun e => h2 (e ▸ ha)
      simp [ha1, ha2]
    · rfl

/-- Witness of C19 with two graphs: a list that holds both names, one of them
twice, and a list that holds neither. -/
theorem C19_prune_is_filter_by_name_witness :
    1 < 2
    ∧ prune 2 ["lite_conv_bn_fuse_pass", "static_kernel_pick_pass", "__xpu__graph_dedup_pass",
               "static_kernel_pick_pass", "lite_conv_bn_fuse_pass", "type_target_cast_pass"]
      = ["lite_conv_bn_fuse_pass", "static_kernel_pick_pass", "__xpu__graph_dedup_pass",
         "static_kernel_pick_pass", "lite_conv_bn_fuse_pass", "type_target_cast_pass"].filter
          (fun x => decide (x ≠ "lite_conv_bn_fuse_pass" ∧ x ≠ "__xpu__graph_dedup_pass"))
    ∧ prune 2 ["static_kernel_pick_pass", "type_target_cast_pass"]
      = ["static_kernel_pick_pass", "type_target_cast_pass"] :=
  ⟨by decide,
   ((C19_prune_is_filter_by_name 2
      ["lite_conv_bn_fuse_pass", "static_kernel_pick_pass", "__xpu__graph_dedup_pass",
       "static_kernel_pick_pass", "lite_conv_bn_fuse_pass", "type_target_cast_pass"]).1
      (by decide)).1,
   (C19_prune_is_filter_by_name 2 ["static_kernel_pick_pass", "type_target_cast_pass"]).2.2
      (by decide) (by decide)⟩

/-! ## The repeated place-inference ordering -/

theorem segmentBetween_eq (A S T : List String) (a b : String)
    (ha : a ∉ A) (hb : b ∉ A) (hab : b ≠ a) (hS : b ∉ S) :
    find (A ++ a :: (S ++ b :: T)) a = A.length
    ∧ find (A ++ a :: (S ++ b :: T)) b = A.length + 1 + S.length
    ∧ segmentBetween (A ++ a :: (S ++ b :: T)) a b = S := by
  have h1 : find (A ++ a :: (S ++ b :: T)) a = A.length := find_append_cons A _ a ha
  have hb2 : b ∉ A ++ a :: S := by
    simp only [List.mem_append, List.mem_cons, not_or]
    exact ⟨hb, hab, hS⟩
  have h2 : find (A ++ a :: (S ++ b :: T)) b = A.length + 1 + S.length := by
    have := find_append_cons (A ++ a :: S) T b hb2
    have e : A ++ a :: (S ++ b :: T) = (A ++ a :: S) ++ b :: T := by simp
    rw [e, this]
    simp only [List.length_append, List.length_cons]
    omega
  refine ⟨h1, h2, ?_⟩
  unfold segmentBetween
  rw [h1, h2]
  have e : A ++ a :: (S ++ b :: T) = (A ++ a :: S) ++ b :: T := by simp
  have hl : (A ++ a :: S).length = A.length + 1 + S.length := by
    simp only [List.length_append, List.length_cons]
    omega
  rw [e, ← hl, List.take_left]
  have e2 : A ++ a :: S = (A ++ [a]) ++ S := by simp
  have hl2 : (A ++ [a]).length = A.length + 1 := by simp
  rw [e2, ← hl2, List.drop_left]

set_option maxRecDepth 100000 in
theorem shapeMid_casts (flags : BuildFlags) (graphs_size : Nat) :
    shapeMid flags graphs_size
      = shapeHead flags graphs_size ++ "type_target_cast_pass" ::
          (targetToPrecision ++ "type_precision_cast_pass" ::
            (precisionToLayout ++ "type_layout_cast_pass" :: layoutToContext))
    ∧ "type_target_cast_pass" ∉ shapeHead flags graphs_size
    ∧ "type_precision_cast_pass" ∉ shapeHead flags graphs_size
    ∧ "type_layout_cast_pass" ∉ shapeHead flags graphs_size := by
  obtain ⟨fpga, prof⟩ := flags
  by_cases h : graphs_size > 1
  · have hp : ∀ v, prune graphs_size v
        = eraseRemove (eraseRemove v "lite_conv_bn_fuse_pass") "__xpu__graph_dedup_pass" := by
      intro v; simp [prune, h]
    simp only [shapeHead, shapeMid, hp]
    cases fpga <;> cases prof <;> decide
  · have hp : ∀ v, prune graphs_size v = v := by
      intro v; simp [prune, h]
    simp only [shapeHead, shapeMid, hp]
    cases fpga <;> cases prof <;> decide

theorem not_mem_shapeHead (flags : BuildFlags) (graphs_size : Nat) (x : String)
    (h : x ∉ shapeMid flags graphs_size) : x ∉ shapeHead flags graphs_size :=
  fun hx => h (List.mem_of_mem_take hx)

/-- Claim C20: the repeated place-inference ordering in the list handed to
`RunPasses`, for every setting of the build switches, number of graphs, valid
places and extra names. The list is assembled without a failed check; the first
`type_target_cast_pass`, `type_precision_cast_pass`, `type_layout_cast_pass` and
`runtime_context_assign_pass` occur in this order; the entries between them
are those of the default list, followed in the last segment by the inserted
copies of `multi_stream_analysis_pass`; and each of the three segments contains
the triple `variable_place_inference_pass`,
`control_flow_op_shared_inputs_and_outputs_place_sync_pass`,
`argument_type_display_pass` as a contiguous block. -/
theorem C20_place_inference_triples_preserved (flags : BuildFlags) (graphs_size : Nat)
    (valid_places : List Place) (passes : List String) :
    ∃ final, passes_local flags graphs_size valid_places passes = .ok final
      ∧ find final "type_target_cast_pass" < find final "type_precision_cast_pass"
      ∧ find final "type_precision_cast_pass" < find final "type_layout_cast_pass"
      ∧ find final "type_layout_cast_pass" < find final "runtime_context_assign_pass"
      ∧ find final "runtime_context_assign_pass" < final.length
      ∧ segmentBetween final "type_target_cast_pass" "type_precision_cast_pass"
          = targetToPrecision
      ∧ segmentBetween final "type_precision_cast_pass" "type_layout_cast_pass"
          = precisionToLayout
      ∧ segmentBetween final "type_layout_cast_pass" "runtime_context_assign_pass"
          = layoutToContext ++ List.replicate (passes.count msa_pass) msa_pass
      ∧ List.IsInfix placeInferenceTriple
          (segmentBetween final "type_target_cast_pass" "type_precision_cast_pass")
      ∧ List.IsInfix placeInferenceTriple
          (segmentBetween final "type_precision_cast_pass" "type_layout_cast_pass")
      ∧ List.IsInfix placeInferenceTriple
          (segmentBetween final "type_layout_cast_pass" "runtime_context_assign_pass") := by
  obtain ⟨_, hmid⟩ := prune_default_shape flags graphs_size
  obtain ⟨hmidEq, hh1, hh2, hh3⟩ := shapeMid_casts flags graphs_size
  have hh4 : "runtime_context_assign_pass" ∉ shapeHead flags graphs_size :=
    not_mem_shapeHead flags graphs_size _ hmid
  have hshape := passes_local_shape flags graphs_size valid_places passes
  generalize passes.count pqd_pass = k at hshape
  generalize passes.count msa_pass = j at hshape ⊢
  generalize (shapeTail flags graphs_size ++ unanchored passes)
      ++ (if hasArmFp16 valid_places then [fp16_pass] else []) = tail at hshape
  rw [hmidEq] at hshape
  generalize shapeHead flags graphs_size = head at hshape hh1 hh2 hh3 hh4
  -- the entries in front of the first `type_target_cast_pass`
  obtain ⟨P, hP⟩ : ∃ P, P = pqd_depend_pass :: (List.replicate k pqd_pass ++ head) := ⟨_, rfl⟩
  have hmemP : ∀ x : String, x ≠ pqd_depend_pass → x ≠ pqd_pass → x ∉ head → x ∉ P := by
    intro x h1 h2 h3
    rw [hP]
    simp only [List.mem_cons, List.mem_append, List.mem_replicate, not_or, not_and]
    exact ⟨h1, fun _ => h2, h3⟩
  have hP1 : "type_target_cast_pass" ∉ P := hmemP _ (by decide) (by decide) hh1
  have hP2 : "type_precision_cast_pass" ∉ P := hmemP _ (by decide) (by decide) hh2
  have hP3 : "type_layout_cast_pass" ∉ P := hmemP _ (by decide) (by decide) hh3
  have hP4 : "runtime_context_assign_pass" ∉ P := hmemP _ (by decide) (by decide) hh4
  obtain ⟨final, hfinal⟩ : ∃ final, final
      = P ++ "type_target_cast_pass" :: (targetToPrecision ++ "type_precision_cast_pass" ::
          (precisionToLayout ++ "type_layout_cast_pass" ::
            ((layoutToContext ++ List.replicate j msa_pass)
              ++ "runtime_context_assign_pass" :: tail))) := ⟨_, rfl⟩
  have hform : mergedShape k j
      (head ++ "type_target_cast_pass" :: (targetToPrecision ++ "type_precision_cast_pass" ::
        (precisionToLayout ++ "type_layout_cast_pass" :: layoutToContext))) tail = final := by
    rw [hfinal, hP]
    simp [mergedShape, msa_depend_pass]
  rw [hform] at hshape
  -- first segment
  obtain ⟨f1, f2, s1⟩ := segmentBetween_eq P targetToPrecision
    (precisionToLayout ++ "type_layout_cast_pass" ::
      ((layoutToContext ++ List.replicate j msa_pass)
        ++ "runtime_context_assign_pass" :: tail))
    "type_target_cast_pass" "type_precision_cast_pass" hP1 hP2 (by decide) (by decide)
  rw [← hfinal] at f1 f2 s1
  -- second segment
  have e2 : final = (P ++ "type_target_cast_pass" :: targetToPrecision)
      ++ "type_precision_cast_pass" :: (precisionToLayout ++ "type_layout_cast_pass" ::
        ((layoutToContext ++ List.replicate j msa_pass)
          ++ "runtime_context_assign_pass" :: tail)) := by
    rw [hfinal]; simp
  have hA2 : ∀ x : String, x ∉ P → x ≠ "type_target_cast_pass" → x ∉ targetToPrecision →
      x ∉ P ++ "type_target_cast_pass" :: targetToPrecision := by
    intro x h1 h2 h3
    simp only [List.mem_append, List.mem_cons, not_or]
    exact ⟨h1, h2, h3⟩
  obtain ⟨g1, g2, s2⟩ := segmentBetween_eq (P ++ "type_target_cast_pass" :: targetToPrecision)
    precisionToLayout
    ((layoutToContext ++ List.replicate j msa_pass) ++ "runtime_context_assign_pass" :: tail)
    "type_precision_cast_pass" "type_layout_cast_pass"
    (hA2 _ hP2 (by decide) (by decide)) (hA2 _ hP3 (by decide) (by decide))
    (by decide) (by decide)
  rw [← e2] at g1 g2 s2
  -- third segment
  have e3 : final = ((P ++ "type_target_cast_pass" :: targetToPrecision)
      ++ "type_precision_cast_pass" :: precisionToLayout)
      ++ "type_layout_cast_pass" :: ((layoutToContext ++ List.replicate j msa_pass)
          ++ "runtime_context_assign_pass" :: tail) := by
    rw [hfinal]; simp
  have hA3 : ∀ x : String, x ∉ P → x ≠ "type_target_cast_pass" → x ∉ targetToPrecision →
      x ≠ "type_precision_cast_pass" → x ∉ precisionToLayout →
      x ∉ (P ++ "type_target_cast_pass" :: targetToPrecision)
        ++ "type_precision_cast_pass" :: precisionToLayout := by
    intro x h1 h2 h3 h4 h5
    simp only [List.mem_append, List.mem_cons, not_or]
    exact ⟨⟨h1, h2, h3⟩, h4, h5⟩
  have hS3 : "runtime_context_assign_pass" ∉ layoutToContext ++ List.replicate j msa_pass := by
    have hd : "runtime_context_assign_pass" ∉ layoutToContext := by decide
    have hne : "runtime_context_assign_pass" ≠ msa_pass := by decide
    simp only [List.mem_append, List.mem_replicate, not_or, not_and]
    exact ⟨hd, fun _ => hne⟩
  obtain ⟨k1, k2, s3⟩ := segmentBetween_eq
    ((P ++ "type_target_cast_pass" :: targetToPrecision)
      ++ "type_precision_cast_pass" :: precisionToLayout)
    (layoutToContext ++ List.replicate j msa_pass) tail
    "type_layout_cast_pass" "runtime_context_assign_pass"
    (hA3 _ hP3 (by decide) (by decide) (by decide) (by decide))
    (hA3 _ hP4 (by decide) (by decide) (by decide) (by decide))
    (by decide) hS3
  rw [← e3] at k1 k2 s3
  have hlen : final.length = (P.length + 1 + targetToPrecision.length + 1
      + precisionToLayout.length + 1 + (layoutToContext ++ List.replicate j msa_pass).length)
      + 1 + tail.length := by
    rw [hfinal]
    simp only [List.length_append, List.length_cons]
    omega
  simp only [List.length_append, List.length_cons] at g1 g2 k1 k2 hlen
  refine ⟨final, hshape, ?_, ?_, ?_, ?_, s1, s2, s3, ?_, ?_, ?_⟩
  · omega
  · omega
  · omega
  · omega
  · rw [s1]
    exact ⟨[], ["io_copy_kernel_pick_pass", "argument_type_display_pass",
      "variable_place_inference_pass",
      "control_flow_op_shared_inputs_and_outputs_place_sync_pass",
      "argument_type_display_pass"], rfl⟩
  · rw [s2]
    exact ⟨[], [], rfl⟩
  · rw [s3]
    exact ⟨["argument_type_display_pass"], List.replicate j msa_pass, rfl⟩

/-! ## Lemmas on the outcomes of the merge loop and of `Run` -/

theorem mergeLoop_append (v done rest : List String) :
    mergeLoop v (done ++ rest)
      = match mergeLoop v done with
        | .error msg => .error msg
        | .ok cur => mergeLoop cur rest := by
  induction done generalizing v with
  | nil => rfl
  | cons x xs ih =>
    cases h : mergeStep v x with
    | error msg => simp [mergeLoop, h]
    | ok next => simpa [mergeLoop, h] using ih next

theorem anchors_mem_mergedShape (k j : Nat) (mid tail : List String) :
    msa_depend_pass ∈ mergedShape k j mid tail ∧ pqd_depend_pass ∈ mergedShape k j mid tail := by
  simp [mergedShape]

theorem mergeStep_shape_ok (k j : Nat) (mid tail : List String)
    (hmid : msa_depend_pass ∉ mid) (x : String) :
    ∃ next, mergeStep (mergedShape k j mid tail) x = .ok next := by
  by_cases h1 : x = msa_pass
  · exact ⟨_, h1 ▸ mergeStep_shape_msa k j mid tail hmid⟩
  · by_cases h2 : x = pqd_pass
    · exact ⟨_, h2 ▸ mergeStep_shape_pqd k j mid tail⟩
    · exact ⟨_, mergeStep_shape_other k j mid tail x h1 h2⟩

section AnchorLemmas

variable {B G : Type}

theorem Result.bind_eq_fatal {σ : Type} (r : Result σ) (k : σ → Result σ) (e m : String)
    (s : σ) :
    r.bind k = .fatal e m s ↔ r = .fatal e m s ∨ ∃ mid, r = .ok mid ∧ k mid = .fatal e m s := by
  cases r <;> simp [Result.bind]

theorem Result.bind_eq_undefined {σ : Type} (r : Result σ) (k : σ → Result σ) (s : σ) :
    r.bind k = .undefined s ↔ r = .undefined s ∨ ∃ mid, r = .ok mid ∧ k mid = .undefined s := by
  cases r <;> simp [Result.bind]

theorem CHECK_eq_fatal {σ : Type} (x : Bool) (expr msg e m : String) (s t : σ) :
    CHECK x expr msg s = .fatal e m t ↔ x = false ∧ e = expr ∧ m = msg ∧ t = s := by
  cases x <;> simp [CHECK, eq_comm]

theorem CHECK_ne_undefined {σ : Type} (x : Bool) (expr msg : String) (s t : σ) :
    CHECK x expr msg s ≠ .undefined t := by
  cases x <;> simp [CHECK]

/-- The outcomes of the three `Init...Pass` members: a normal return, or a failed
`CHECK(pass)`, or a failed check of the member the pass is configured with;
never an undefined access. -/
theorem Init_outcomes (env : Env B G) (self : Optimizer B G) :
    (∀ e m t, InitTargetTypeTransformPass env self = .fatal e m t →
        (e = "pass" ∨ e = "!valid_places_.empty()") ∧ t = self)
    ∧ (∀ e m t, InitControlFlowOpUnusedInputsAndOutputsEliminatePass env self = .fatal e m t →
        (e = "pass" ∨ e = "!graphs_.empty()") ∧ t = self)
    ∧ (∀ e m t, InitControlFlowOpSharedInputsAndOutputsPlaceSyncPass env self = .fatal e m t →
        (e = "pass" ∨ e = "!graphs_.empty()") ∧ t = self)
    ∧ (∀ t, InitTargetTypeTransformPass env self ≠ .undefined t)
    ∧ (∀ t, InitControlFlowOpUnusedInputsAndOutputsEliminatePass env self ≠ .undefined t)
    ∧ (∀ t, InitControlFlowOpSharedInputsAndOutputsPlaceSyncPass env self ≠ .undefined t) := by
  refine ⟨?_, ?_, ?_, ?_, ?_, ?_⟩
  · intro e m t h
    simp only [InitTargetTypeTransformPass, Result.bind_eq_fatal, CHECK_eq_fatal,
      CHECK_eq_ok] at h
    rcases h with ⟨_, rfl, _, rfl⟩ | ⟨m1, ⟨_, rfl⟩, h⟩
    · exact ⟨Or.inl rfl, rfl⟩
    · rcases h with ⟨_, rfl, _, rfl⟩ | ⟨m2, ⟨_, rfl⟩, h⟩
      · exact ⟨Or.inr rfl, rfl⟩
      · cases h
  · intro e m t h
    simp only [InitControlFlowOpUnusedInputsAndOutputsEliminatePass, Result.bind_eq_fatal,
      CHECK_eq_fatal, CHECK_eq_ok] at h
    rcases h with ⟨_, rfl, _, rfl⟩ | ⟨m1, ⟨_, rfl⟩, h⟩
    · exact ⟨Or.inl rfl, rfl⟩
    · rcases h with ⟨_, rfl, _, rfl⟩ | ⟨m2, ⟨_, rfl⟩, h⟩
      · exact ⟨Or.inr rfl, rfl⟩
      · cases h
  · intro e m t h
    simp only [InitControlFlowOpSharedInputsAndOutputsPlaceSyncPass, Result.bind_eq_fatal,
      CHECK_eq_fatal, CHECK_eq_ok] at h
    rcases h with ⟨_, rfl, _, rfl⟩ | ⟨m1, ⟨_, rfl⟩, h⟩
    · exact ⟨Or.inl rfl, rfl⟩
    · rcases h with ⟨_, rfl, _, rfl⟩ | ⟨m2, ⟨_, rfl⟩, h⟩
      · exact ⟨Or.inr rfl, rfl⟩
      · cases h
  · intro t h
    simp only [InitTargetTypeTransformPass, Result.bind_eq_undefined, CHECK_eq_ok] at h
    rcases h with h | ⟨m1, ⟨_, rfl⟩, h | ⟨m2, ⟨_, rfl⟩, h⟩⟩
    · exact CHECK_ne_undefined _ _ _ _ _ h
    · exact CHECK_ne_undefined _ _ _ _ _ h
    · cases h
  · intro t h
    simp only [InitControlFlowOpUnusedInputsAndOutputsEliminatePass, Result.bind_eq_undefined,
      CHECK_eq_ok] at h
    rcases h with h | ⟨m1, ⟨_, rfl⟩, h | ⟨m2, ⟨_, rfl⟩, h⟩⟩
    · exact CHECK_ne_undefined _ _ _ _ _ h
    · exact CHECK_ne_undefined _ _ _ _ _ h
    · cases h
  · intro t h
    simp only [InitControlFlowOpSharedInputsAndOutputsPlaceSyncPass, Result.bind_eq_undefined,
      CHECK_eq_ok] at h
    rcases h with h | ⟨m1, ⟨_, rfl⟩, h | ⟨m2, ⟨_, rfl⟩, h⟩⟩
    · exact CHECK_ne_undefined _ _ _ _ _ h
    · exact CHECK_ne_undefined _ _ _ _ _ h
    · cases h

end AnchorLemmas

section RunSafety

variable {B G : Type}

theorem RunPasses_ne_undefined (env : Env B G) (passes : List String)
    (self s : Optimizer B G) (hne : self.graphs_ ≠ []) :
    RunPasses env passes self ≠ .undefined s := by
  intro h
  obtain ⟨final, hok, _⟩ := RunPasses_ok env passes self hne
  rw [hok] at h
  cases h

/-- No outcome of `Run` is a failed anchor check
`CHECK(iter != passes_local.end())`. -/
theorem Run_ne_anchor_fatal (env : Env B G) (program : Program B)
    (valid_places : List Place) (factor : KernelPickFactor) (passes : List String)
    (self s : Optimizer B G) (msg : String) :
    Run env program valid_places factor passes self
      ≠ .fatal "iter != passes_local.end()" msg s := by
  intro h
  unfold Run at h
  simp only [Result.bind_eq_fatal, CHECK_eq_fatal, CHECK_eq_ok,
    InitTargetTypeTransformPass_eq_ok,
    InitControlFlowOpUnusedInputsAndOutputsEliminatePass_eq_ok,
    InitControlFlowOpSharedInputsAndOutputsPlaceSyncPass_eq_ok] at h
  rcases h with ⟨_, he, _⟩ | ⟨m1, ⟨_, rfl⟩, h⟩
  · exact absurd he (by decide)
  rcases h with ⟨_, he, _⟩ | ⟨m2, ⟨_, rfl⟩, h⟩
  · exact absurd he (by decide)
  rcases h with h | ⟨m3, ⟨_, _, rfl⟩, h⟩
  · rcases ((Init_outcomes env _).1 _ _ _ h).1 with he | he <;> exact absurd he (by decide)
  rcases h with h | ⟨m4, ⟨_, _, rfl⟩, h⟩
  · rcases ((Init_outcomes env _).2.1 _ _ _ h).1 with he | he <;> exact absurd he (by decide)
  rcases h with h | ⟨m5, ⟨_, _, rfl⟩, h⟩
  · rcases ((Init_outcomes env _).2.2.1 _ _ _ h).1 with he | he <;> exact absurd he (by decide)
  rw [passes_local_shape] at h
  rcases (Result.bind_eq_fatal _ _ _ _ _).mp h with h | ⟨m6, _, h⟩
  · exact RunPasses_ne_fatal env _ _ _ _ _ h
  · cases h

/-- No outcome of `Run` is an undefined access: when `RunPasses` is entered the
graph list is not empty. -/
theorem Run_ne_undefined (env : Env B G) (program : Program B)
    (valid_places : List Place) (factor : KernelPickFactor) (passes : List String)
    (self s : Optimizer B G) :
    Run env program valid_places factor passes self ≠ .undefined s := by
  intro h
  unfold Run at h
  simp only [Result.bind_eq_undefined, CHECK_eq_ok,
    InitTargetTypeTransformPass_eq_ok,
    InitControlFlowOpUnusedInputsAndOutputsEliminatePass_eq_ok,
    InitControlFlowOpSharedInputsAndOutputsPlaceSyncPass_eq_ok] at h
  rcases h with h | ⟨m1, ⟨_, rfl⟩, h⟩
  · exact CHECK_ne_undefined _ _ _ _ _ h
  rcases h with h | ⟨m2, ⟨_, rfl⟩, h⟩
  · exact CHECK_ne_undefined _ _ _ _ _ h
  rcases h with h | ⟨m3, ⟨_, _, rfl⟩, h⟩
  · exact (Init_outcomes env _).2.2.2.1 _ h
  rcases h with h | ⟨m4, ⟨_, hne, rfl⟩, h⟩
  · exact (Init_outcomes env _).2.2.2.2.1 _ h
  rcases h with h | ⟨m5, ⟨_, _, rfl⟩, h⟩
  · exact (Init_outcomes env _).2.2.2.2.2 _ h
  rw [passes_local_shape] at h
  rcases (Result.bind_eq_undefined _ _ _).mp h with h | ⟨m6, _, h⟩
  · have hne2 : ∀ l : List G, l.isEmpty = false → l ≠ [] := by
      intro l hl h0
      rw [h0] at hl
      cases hl
    refine RunPasses_ne_undefined env _ _ _ ?_ h
    exact hne2 _ hne
  · cases h

end RunSafety

/-! ## Checks that cannot fail inside `Run` -/

set_option maxRecDepth 100000 in
theorem anchors_in_default (flags : BuildFlags) :
    msa_depend_pass ∈ passes_default flags ∧ pqd_depend_pass ∈ passes_default flags := by
  obtain ⟨fpga, prof⟩ := flags
  cases fpga <;> cases prof <;> decide

section SafetyClaims

variable {B G : Type}

/-- Claim C21: the anchor checks of the merge loop cannot fail inside `Run`. Both
anchors, `runtime_context_assign_pass` and `lite_quant_dequant_fuse_pass`, are in
the default list and in the pruned list, for every number of graphs. Split the
extra names at any point into those merged so far, `done`, and those to come,
`rest`: the loop has reached a list `cur` without a failed check, `cur` holds
both anchors, the step for any next name passes its check, and the loop runs to
its end. So the assembly of the pass list returns a list, and no outcome of
`Run` is the failed check `CHECK(iter != passes_local.end())`. -/
theorem C21_anchor_checks_unreachable (flags : BuildFlags) (graphs_size : Nat)
    (done rest : List String) :
    (msa_depend_pass ∈ passes_default flags ∧ pqd_depend_pass ∈ passes_default flags)
    ∧ (msa_depend_pass ∈ prune graphs_size (passes_default flags)
        ∧ pqd_depend_pass ∈ prune graphs_size (passes_default flags))
    ∧ (∃ cur final,
        mergeLoop (prune graphs_size (passes_default flags)) done = .ok cur
        ∧ msa_depend_pass ∈ cur ∧ pqd_depend_pass ∈ cur
        ∧ (∀ x, ∃ next, mergeStep cur x = .ok next)
        ∧ mergeLoop cur rest = .ok final
        ∧ mergeLoop (prune graphs_size (passes_default flags)) (done ++ rest) = .ok final)
    ∧ (∀ valid_places msg,
        passes_local flags graphs_size valid_places (done ++ rest) ≠ .error msg)
    ∧ (∀ (env : Env B G) (program : Program B) (valid_places : List Place)
        (factor : KernelPickFactor) (self s : Optimizer B G) (msg : String),
        Run env program valid_places factor (done ++ rest) self
          ≠ .fatal "iter != passes_local.end()" msg s) := by
  obtain ⟨hs, hmid⟩ := prune_default_shape flags graphs_size
  have hcur := mergeLoop_shape done 0 0 (shapeMid flags graphs_size)
    (shapeTail flags graphs_size) hmid
  have hfin := mergeLoop_shape rest (0 + done.count pqd_pass) (0 + done.count msa_pass)
    (shapeMid flags graphs_size) (shapeTail flags graphs_size ++ unanchored done) hmid
  refine ⟨anchors_in_default flags, ?_, ?_, ?_, ?_⟩
  · rw [hs]
    exact anchors_mem_mergedShape _ _ _ _
  · refine ⟨_, _, ?_, ?_, ?_, ?_, hfin, ?_⟩
    · rw [hs]; exact hcur
    · exact (anchors_mem_mergedShape _ _ _ _).1
    · exact (anchors_mem_mergedShape _ _ _ _).2
    · exact mergeStep_shape_ok _ _ _ _ hmid
    · rw [mergeLoop_append, hs, hcur]
      exact hfin
  · intro valid_places msg h
    rw [passes_local_shape] at h
    cases h
  · intro env program valid_places factor self s msg
    exact Run_ne_anchor_fatal env program valid_places factor (done ++ rest) self s msg

/-- Witness of C21 with two graphs, after the extra name
`multi_stream_analysis_pass` and before `post_quant_dynamic_pass`. -/
theorem C21_anchor_checks_unreachable_witness :
    ∃ cur final,
      mergeLoop (prune 2 (passes_default ⟨false, false⟩)) ["multi_stream_analysis_pass"]
        = .ok cur
      ∧ msa_depend_pass ∈ cur ∧ pqd_depend_pass ∈ cur
      ∧ (∀ x, ∃ next, mergeStep cur x = .ok next)
      ∧ mergeLoop cur ["post_quant_dynamic_pass"] = .ok final
      ∧ mergeLoop (prune 2 (passes_default ⟨false, false⟩))
          (["multi_stream_analysis_pass"] ++ ["post_quant_dynamic_pass"]) = .ok final :=
  (@C21_anchor_checks_unreachable Unit Nat ⟨false, false⟩ 2 ["multi_stream_analysis_pass"]
    ["post_quant_dynamic_pass"]).2.2.1

/-- Claim C22: the access `graphs_[kRootBlockIdx]` of `RunPasses` is in bounds inside
`Run`. The last member called before `RunPasses` returns normally only with a
non-empty `graphs_`; on a non-empty `graphs_` no outcome of `RunPasses` is an
undefined access, hence none of `Run` is. A program without blocks makes `Run`
end in a failed check, in a state with the graphs it started with and no call
of `Apply` added to the trace; on an Optimizer without graphs, with non-empty
valid places and the two passes configured first registered, that check is
`CHECK(!graphs_.empty())` of the control-flow elimination pass. -/
theorem C22_root_access_in_bounds (env : Env B G) (program : Program B)
    (valid_places : List Place) (factor : KernelPickFactor) (passes : List String)
    (self : Optimizer B G) :
    (∀ a c : Optimizer B G,
        InitControlFlowOpSharedInputsAndOutputsPlaceSyncPass env a = .ok c → c.graphs_ ≠ [])
    ∧ (∀ (list : List String) (s t : Optimizer B G), s.graphs_ ≠ [] →
        RunPasses env list s ≠ .undefined t)
    ∧ (∀ s, Run env program valid_places factor passes self ≠ .undefined s)
    ∧ (program.block_size = 0 →
        (∃ e m s, Run env program valid_places factor passes self = .fatal e m s)
        ∧ (Run env program valid_places factor passes self).state.graphs_ = self.graphs_
        ∧ ∃ extra,
            (Run env program valid_places factor passes self).state.trace = self.trace ++ extra
            ∧ ∀ name idx, Event.Apply name idx ∉ extra)
    ∧ (program.block_size = 0 → valid_places ≠ [] → self.graphs_ = [] →
        (env.LookUp "type_target_cast_pass").isSome = true →
        (env.LookUp "control_flow_op_unused_inputs_and_outputs_eliminate_pass").isSome = true →
        Run env program valid_places factor passes self
          = .fatal "!graphs_.empty()" ""
              { graphs_ := [],
                valid_places_ := valid_places,
                exec_scope_ := self.exec_scope_,
                program_ := some program,
                trace := self.trace ++ [Event.SpecifyKernelPickTactic factor,
                  Event.SetValidPlaces "type_target_cast_pass"] }) := by
  refine ⟨?_, ?_, ?_, ?_, ?_⟩
  · intro a c h
    obtain ⟨_, hne, rfl⟩ :=
      (InitControlFlowOpSharedInputsAndOutputsPlaceSyncPass_eq_ok env a c).mp h
    intro h0
    have h0' : a.graphs_ = [] := h0
    rw [h0'] at hne
    cases hne
  · intro list s t hne
    exact RunPasses_ne_undefined env list s t hne
  · intro s
    exact Run_ne_undefined env program valid_places factor passes self s
  · intro h0
    have hfin : ∀ (e m : String) (s : Optimizer B G) (extra : List Event),
        Run env program valid_places factor passes self = .fatal e m s →
        s.graphs_ = self.graphs_ → s.trace = self.trace ++ extra →
        (∀ name idx, Event.Apply name idx ∉ extra) →
        (∃ e m s, Run env program valid_places factor passes self = .fatal e m s)
        ∧ (Run env program valid_places factor passes self).state.graphs_ = self.graphs_
        ∧ ∃ extra,
            (Run env program valid_places factor passes self).state.trace
              = self.trace ++ extra
            ∧ ∀ name idx, Event.Apply name idx ∉ extra := by
      intro e m s extra hrun hg ht hno
      refine ⟨⟨e, m, s, hrun⟩, ?_, extra, ?_, hno⟩
      · rw [hrun]; exact hg
      · rw [hrun]; exact ht
    cases h1 : valid_places.isEmpty
    · cases h2 : self.graphs_.isEmpty
      · refine hfin "graphs_.empty()" "duplicate optimize found"
          { self with program_ := some program, valid_places_ := valid_places } []
          ?_ rfl (by simp) (by simp)
        simp [Run, CHECK, Result.bind, h1, h2]
      · have hg : self.graphs_ = [] := by
          cases hgs : self.graphs_ with
          | nil => rfl
          | cons a l => rw [hgs] at h2; cases h2
        cases h3 : (env.LookUp "type_target_cast_pass").isSome
        · refine hfin "pass" ""
            { graphs_ := [],
              valid_places_ := valid_places,
              exec_scope_ := self.exec_scope_,
              program_ := some program,
              trace := self.trace ++ [Event.SpecifyKernelPickTactic factor] }
            [Event.SpecifyKernelPickTactic factor] ?_ hg.symm rfl (by simp)
          simp [Run, CHECK, Result.bind, h1, hg, InitTargetTypeTransformPass, h3,
            buildGraphs_eq, SpecifyKernelPickTactic, h0]
        · cases h4 : (env.LookUp
              "control_flow_op_unused_inputs_and_outputs_eliminate_pass").isSome
          · refine hfin "pass" ""
              { graphs_ := [],
                valid_places_ := valid_places,
                exec_scope_ := self.exec_scope_,
                program_ := some program,
                trace := self.trace ++ [Event.SpecifyKernelPickTactic factor,
                  Event.SetValidPlaces "type_target_cast_pass"] }
              [Event.SpecifyKernelPickTactic factor,
                Event.SetValidPlaces "type_target_cast_pass"] ?_ hg.symm rfl (by simp)
            simp [Run, CHECK, Result.bind, h1, hg, InitTargetTypeTransformPass, h3,
              InitControlFlowOpUnusedInputsAndOutputsEliminatePass, h4, buildGraphs_eq,
              SpecifyKernelPickTactic, h0]
          · refine hfin "!graphs_.empty()" ""
              { graphs_ := [],
                valid_places_ := valid_places,
                exec_scope_ := self.exec_scope_,
                program_ := some program,
                trace := self.trace ++ [Event.SpecifyKernelPickTactic factor,
                  Event.SetValidPlaces "type_target_cast_pass"] }
              [Event.SpecifyKernelPickTactic factor,
                Event.SetValidPlaces "type_target_cast_pass"] ?_ hg.symm rfl (by simp)
            simp [Run, CHECK, Result.bind, h1, hg, InitTargetTypeTransformPass, h3,
              InitControlFlowOpUnusedInputsAndOutputsEliminatePass, h4, buildGraphs_eq,
              SpecifyKernelPickTactic, h0]
    · refine hfin "!valid_places.empty()" "At least one valid_place should be set"
        { self with program_ := some program, valid_places_ := valid_places } []
        ?_ rfl (by simp) (by simp)
      simp [Run, CHECK, Result.bind, h1]
  · intro h0 hvp hfresh h3 h4
    have h1 : valid_places.isEmpty = false := by
      cases valid_places with
      | nil => exact absurd rfl hvp
      | cons a l => rfl
    simp [Run, CHECK, Result.bind, h1, hfresh, InitTargetTypeTransformPass, h3,
      InitControlFlowOpUnusedInputsAndOutputsEliminatePass, h4, buildGraphs_eq,
      SpecifyKernelPickTactic, h0]

/-- Witness of C22: `exampleEnv`, a program without blocks, `examplePlaces`, on a
fresh Optimizer. -/
theorem C22_root_access_in_bounds_witness :
    Program.block_size ({ blocks := [], exec_scope := some 3 } : Program Unit) = 0
    ∧ examplePlaces ≠ []
    ∧ Run exampleEnv { blocks := [], exec_scope := some 3 } examplePlaces exampleFactor
          ["multi_stream_analysis_pass"] (Optimizer.new Unit Nat)
        = .fatal "!graphs_.empty()" ""
            { graphs_ := [],
              valid_places_ := examplePlaces,
              exec_scope_ := none,
              program_ := some { blocks := [], exec_scope := some 3 },
              trace := [Event.SpecifyKernelPickTactic exampleFactor,
                Event.SetValidPlaces "type_target_cast_pass"] } :=
  ⟨rfl, by decide,
   (C22_root_access_in_bounds exampleEnv { blocks := [], exec_scope := some 3 }
      examplePlaces exampleFactor ["multi_stream_analysis_pass"]
      (Optimizer.new Unit Nat)).2.2.2.2 rfl (by decide) rfl rfl rfl⟩

end SafetyClaims

end paddle.lite
